import Mathlib

/-!
Verification development for the afkbot session-mediation layer.

The TypeScript sources are shallowly embedded:
* `src/slack/session-manager.ts` (SessionManager): transcript tailing,
  record deduplication, transcript-file discovery, claimed-file set,
  input forwarding.
* `src/slack/slack-app.ts` / `src/discord/discord-app.ts`: the chat-adapter
  echo-suppression ledger.
* `src/relay/connections.ts` and the relay server message handlers:
  connection registry, subscriptions, history replay, status updates,
  push notification triggers.

Modelling conventions:
* JSON.parse of a transcript line is abstracted by a parameter
  `parse : String -> Option RawRecord`; a parse failure is `none`.
* The MD5 record fingerprint is modelled as an injective fingerprint, so the
  seen-set stores the raw line itself; likewise the todos content hash is
  modelled by structural equality of the todo list.
* JavaScript timestamps are integers (`Int`); `new Date(x).getTime()`.
* JavaScript `Set` semantics (membership-checked insert, single delete) are
  modelled explicitly on lists.
* Stateful classes become explicit state records with pure transition
  functions; emitted callbacks / socket writes become result lists.
-/

namespace Afk

/-- Todo item as produced by `extractTodos` and consumed by the relay. -/
structure TodoItem where
  content : String
  status : String
  activeForm : Option String
deriving DecidableEq, Repr

/-- Tool-call info extracted from assistant records. -/
structure ToolCallInfo where
  id : String
  name : String
  input : String
deriving DecidableEq, Repr

/-- Tool-result info extracted from user records. -/
structure ToolResultInfo where
  toolUseId : String
  content : String
  isError : Bool
deriving DecidableEq, Repr

/-- JavaScript string truthiness for an optional string field:
missing and empty strings are falsy. -/
def truthy : Option String → Bool
  | some s => !(s == "")
  | none => false

/-- Substring containment, modelling JavaScript `String.prototype.includes`. -/
def stringIncludes (s pat : String) : Bool :=
  decide (pat.toList <:+: s.toList)

/-- JavaScript `String.prototype.trim`: drop whitespace from both ends
(defined over the character list so that it evaluates by kernel
reduction). -/
def jsTrim (s : String) : String :=
  String.mk (((s.toList.dropWhile Char.isWhitespace).reverse.dropWhile
    Char.isWhitespace).reverse)

/-- `Map.get`: first binding of the key in an association list. -/
def alistGet {α β : Type} [DecidableEq α] : List (α × β) → α → Option β
  | [], _ => none
  | (k, v) :: rest, a => if k = a then some v else alistGet rest a

/-- `Map.set`: replace the binding if the key is present, else append. -/
def alistSet {α β : Type} [DecidableEq α] : List (α × β) → α → β → List (α × β)
  | [], a, v => [(a, v)]
  | (k, w) :: rest, a, v =>
    if k = a then (a, v) :: rest else (k, w) :: alistSet rest a v

/-- `Map.delete` / `Set.delete` keyed by the first component. -/
def alistRemove {α β : Type} [DecidableEq α] : List (α × β) → α → List (α × β)
  | [], _ => []
  | (k, w) :: rest, a =>
    if k = a then alistRemove rest a else (k, w) :: alistRemove rest a

namespace SM

/-- Inner text block of a `tool_result` content array. -/
structure TextBlock where
  type : String
  text : Option String
deriving DecidableEq, Repr

/-- Content field of a `tool_result` block: string, block array, or absent. -/
inductive ToolResultContent where
  | str (s : String)
  | arr (bs : List TextBlock)
  | missing
deriving DecidableEq, Repr

/-- One block of a structured `message.content` array. -/
structure ContentBlock where
  type : String
  text : Option String
  id : Option String
  name : Option String
  input : Option String
  toolUseId : Option String
  content : ToolResultContent
  isError : Option Bool
deriving DecidableEq, Repr

/-- The `message.content` field: plain string, block array, or other shape. -/
inductive MsgContent where
  | str (s : String)
  | arr (bs : List ContentBlock)
  | other
deriving DecidableEq, Repr

/-- The `message` field of a transcript record. -/
structure MsgField where
  role : Option String
  content : MsgContent
deriving DecidableEq, Repr

/-- Raw todo entry as found on a transcript record. -/
structure RawTodo where
  content : Option String
  status : Option String
  activeForm : Option String
deriving DecidableEq, Repr

/-- A parsed transcript record: the fields of the JSON object that
`session-manager.ts` reads. -/
structure RawRecord where
  type : Option String
  isMeta : Bool
  subtype : Option String
  slug : Option String
  todos : Option (List RawTodo)
  message : Option MsgField
  timestamp : Option Int
deriving DecidableEq, Repr

/-- Normalized chat message, mirroring `ChatMessage` in session-manager.ts.
A `none` timestamp models a record without a `timestamp` field (the source
substitutes the current wall-clock time, which is never before session
start). -/
structure ChatMessage where
  role : String
  content : String
  timestamp : Option Int
deriving DecidableEq, Repr

/-- Internal per-session state of the SessionManager
(`InternalSession` in session-manager.ts). -/
structure InternalSession where
  id : String
  name : String
  cwd : String
  projectDir : String
  status : String
  startedAt : Int
  watchedFile : Option String
  seenMessages : List String
  slugFound : Bool
  lastTodos : Option (List TodoItem)
  inPlanMode : Bool
  initialFileStats : List (String × Int)
deriving DecidableEq, Repr

/-- Events emitted through the `SessionEvents` callback surface. -/
inductive SMEvent where
  | sessionStart (id name cwd : String)
  | sessionEnd (id : String)
  | sessionUpdate (id name : String)
  | sessionStatus (id status : String)
  | message (id role content : String)
  | todos (id : String) (items : List TodoItem)
  | toolCall (id : String) (t : ToolCallInfo)
  | toolResult (id : String) (r : ToolResultInfo)
  | planModeChange (id : String) (b : Bool)
deriving DecidableEq, Repr

variable (parse : String → Option RawRecord)

/-- `extractSlug` from session-manager.ts: `data.slug && typeof data.slug
=== 'string'` (an empty slug string is falsy). -/
def extractSlug (line : String) : Option String :=
  match parse line with
  | none => none
  | some d =>
    match d.slug with
    | some s => if s = "" then none else some s
    | none => none

/-- `extractTodos` from session-manager.ts: requires a nonempty `todos`
array, defaulting each item's content to `""` and status to `"pending"`. -/
def extractTodos (line : String) : Option (List TodoItem) :=
  match parse line with
  | none => none
  | some d =>
    match d.todos with
    | some ts =>
      if ts = [] then none
      else some (ts.map fun t =>
        { content := match t.content with
            | some c => c
            | none => ""
          status := match t.status with
            | some s => if s = "" then "pending" else s
            | none => "pending"
          activeForm := t.activeForm })
    | none => none

/-- `detectPlanMode` from session-manager.ts: marker substrings inside a
string-content user record. -/
def detectPlanMode (line : String) : Option Bool :=
  match parse line with
  | none => none
  | some d =>
    if d.type ≠ some "user" then none
    else
      match d.message with
      | none => none
      | some m =>
        match m.content with
        | MsgContent.str c =>
          if stringIncludes c "<system-reminder>" && stringIncludes c "Plan mode is active" then
            some true
          else if stringIncludes c "Exited Plan Mode" || stringIncludes c "exited plan mode" then
            some false
          else none
        | _ => none

/-- `extractToolCalls` from session-manager.ts: `tool_use` blocks of an
assistant record's content array. -/
def extractToolCalls (line : String) : List ToolCallInfo :=
  match parse line with
  | none => []
  | some d =>
    if d.type ≠ some "assistant" then []
    else
      match d.message with
      | none => []
      | some m =>
        match m.content with
        | MsgContent.arr blocks =>
          blocks.filterMap fun b =>
            if b.type == "tool_use" && truthy b.id && truthy b.name then
              some { id := b.id.getD "", name := b.name.getD "", input := b.input.getD "" }
            else none
        | _ => []

/-- `extractToolResults` from session-manager.ts: `tool_result` blocks of a
user record's content array; block content is a string or joined text
blocks. -/
def extractToolResults (line : String) : List ToolResultInfo :=
  match parse line with
  | none => []
  | some d =>
    if d.type ≠ some "user" then []
    else
      match d.message with
      | none => []
      | some m =>
        match m.content with
        | MsgContent.arr blocks =>
          blocks.filterMap fun b =>
            if b.type == "tool_result" && truthy b.toolUseId then
              some { toolUseId := b.toolUseId.getD ""
                     content :=
                       match b.content with
                       | ToolResultContent.str s => s
                       | ToolResultContent.arr bs =>
                         String.intercalate "\n"
                           ((bs.filter fun tb => tb.type == "text").map fun tb => tb.text.getD "")
                       | ToolResultContent.missing => ""
                     isError := b.isError = some true }
            else none
        | _ => []

/-- `parseJsonlLine` from session-manager.ts: conversational user/assistant
records only, no meta/subtype, concatenated nonempty text blocks, trimmed. -/
def parseJsonlLine (line : String) : Option ChatMessage :=
  match parse line with
  | none => none
  | some d =>
    if ¬(d.type = some "user" ∨ d.type = some "assistant") then none
    else if d.isMeta || truthy d.subtype then none
    else
      match d.message with
      | none => none
      | some m =>
        if ¬ truthy m.role then none
        else
          let content : String :=
            match m.content with
            | MsgContent.str s => s
            | MsgContent.arr bs =>
              bs.foldl (fun acc (b : ContentBlock) =>
                if b.type == "text" && truthy b.text then acc ++ b.text.getD "" else acc) ""
            | MsgContent.other => ""
          if jsTrim content = "" then none
          else some { role := m.role.getD "", content := jsTrim content, timestamp := d.timestamp }

/-- Body of the per-line loop of `processJsonlUpdates`: skip lines whose
fingerprint is already in the seen-set, otherwise record the fingerprint and
emit slug / todos / plan-mode / tool / message events in source order. -/
def processLine (s : InternalSession) (line : String) : InternalSession × List SMEvent :=
  if line ∈ s.seenMessages then (s, [])
  else
    let s1 := { s with seenMessages := line :: s.seenMessages }
    let slugStep :=
      if ¬ s1.slugFound then
        match extractSlug parse line with
        | some slug =>
          ({ s1 with slugFound := true, name := slug }, [SMEvent.sessionUpdate s1.id slug])
        | none => (s1, ([] : List SMEvent))
      else (s1, ([] : List SMEvent))
    let s2 := slugStep.1
    let todosStep :=
      match extractTodos parse line with
      | some ts =>
        if some ts ≠ s2.lastTodos then
          ({ s2 with lastTodos := some ts }, [SMEvent.todos s2.id ts])
        else (s2, ([] : List SMEvent))
      | none => (s2, ([] : List SMEvent))
    let s3 := todosStep.1
    let planStep :=
      match detectPlanMode parse line with
      | some b =>
        if b ≠ s3.inPlanMode then
          ({ s3 with inPlanMode := b }, [SMEvent.planModeChange s3.id b])
        else (s3, ([] : List SMEvent))
      | none => (s3, ([] : List SMEvent))
    let s4 := planStep.1
    let evCalls := (extractToolCalls parse line).map (SMEvent.toolCall s4.id)
    let evResults := (extractToolResults parse line).map (SMEvent.toolResult s4.id)
    let evMsg :=
      match parseJsonlLine parse line with
      | some pm =>
        match pm.timestamp with
        | some t => if t < s4.startedAt then [] else [SMEvent.message s4.id pm.role pm.content]
        | none => [SMEvent.message s4.id pm.role pm.content]
      | none => []
    (s4, slugStep.2 ++ todosStep.2 ++ planStep.2 ++ evCalls ++ evResults ++ evMsg)

/-- `processJsonlUpdates` from session-manager.ts: split the whole file on
newlines, drop empty lines, process each line in order. -/
def processJsonlUpdates (s : InternalSession) (content : String) :
    InternalSession × List SMEvent :=
  ((content.splitOn "\n").filter fun l => l ≠ "").foldl
    (fun acc line =>
      let step := processLine parse acc.1 line
      (step.1, acc.2 ++ step.2))
    (s, [])

/-- Concrete tailer state used by closed witnesses: one record fingerprint
already seen. -/
def witnessSession : InternalSession :=
  { id := "s1", name := "cmd", cwd := "/w", projectDir := "/p", status := "running",
    startedAt := 0, watchedFile := none, seenMessages := ["r1"], slugFound := false,
    lastTodos := none, inPlanMode := false, initialFileStats := [] }

/-- A directory entry as the SessionManager observes it: file name,
modification time (`mtimeMs`), and file content. -/
structure DirEntry where
  name : String
  mtime : Int
  content : String
deriving DecidableEq, Repr

/-- Path construction from `findActiveJsonlFile` and `snapshotJsonlFiles`. -/
def entryPath (projectDir : String) (e : DirEntry) : String :=
  projectDir ++ "/" ++ e.name

/-- `hasConversationMessages` from session-manager.ts: the raw file content
contains a user or assistant record discriminator. -/
def hasConversationMessages (content : String) : Bool :=
  stringIncludes content "\"type\":\"user\"" || stringIncludes content "\"type\":\"assistant\""

/-- The transcript naming filter applied by both `snapshotJsonlFiles` and
`findActiveJsonlFile`: `.jsonl` files excluding the `agent-` sub-agent
prefix. -/
def isJsonlCandidate (e : DirEntry) : Bool :=
  (".jsonl".toList.isSuffixOf e.name.toList) &&
    !("agent-".toList.isPrefixOf e.name.toList)

/-- Mtime-descending comparison used by the sort in `findActiveJsonlFile`
(`(a, b) => b.mtime - a.mtime`). -/
def mtimeDesc (a b : DirEntry) : Prop := b.mtime ≤ a.mtime

instance : DecidableRel mtimeDesc :=
  fun a b => inferInstanceAs (Decidable (b.mtime ≤ a.mtime))

instance : IsTotal DirEntry mtimeDesc := ⟨fun a b => le_total b.mtime a.mtime⟩

instance : IsTrans DirEntry mtimeDesc := ⟨fun _ _ _ h1 h2 => le_trans h2 h1⟩

/-- Lookup in the snapshot map (`session.initialFileStats.get(path)`). -/
def statLookup : List (String × Int) → String → Option Int
  | [], _ => none
  | (q, m) :: rest, p => if q = p then some m else statLookup rest p

/-- Predicate of the first discovery loop of `findActiveJsonlFile`: a file
present in the snapshot, modified after its snapshot mtime, containing a
conversation record. -/
def modifiedSincePred (session : InternalSession) (e : DirEntry) : Bool :=
  match statLookup session.initialFileStats (entryPath session.projectDir e) with
  | some m0 => decide (m0 < e.mtime) && hasConversationMessages e.content
  | none => false

/-- Predicate of the second discovery loop of `findActiveJsonlFile`: a file
absent from the snapshot, containing a conversation record. -/
def newFilePred (session : InternalSession) (e : DirEntry) : Bool :=
  (statLookup session.initialFileStats (entryPath session.projectDir e)).isNone
    && hasConversationMessages e.content

/-- Candidate set of `findActiveJsonlFile`: transcript-named files whose path
is not in the process-wide claimed set. -/
def discoveryCands (claimed : List String) (session : InternalSession)
    (files : List DirEntry) : List DirEntry :=
  (files.filter isJsonlCandidate).filter fun e =>
    !(claimed.contains (entryPath session.projectDir e))

/-- The mtime-descending ordering of the unclaimed candidates
(`fileStats.sort((a, b) => b.mtime - a.mtime)`). -/
def discoverySorted (claimed : List String) (session : InternalSession)
    (files : List DirEntry) : List DirEntry :=
  (discoveryCands claimed session files).insertionSort mtimeDesc

/-- `findActiveJsonlFile` from session-manager.ts: filter to unclaimed
transcript candidates, sort by mtime descending, then prefer
modified-since-snapshot files (resumed-session case) over files new since the
snapshot; only files with conversation records qualify. -/
def findActiveJsonlFile (claimed : List String) (session : InternalSession)
    (files : List DirEntry) : Option String :=
  if (discoveryCands claimed session files).isEmpty then none
  else
    match (discoverySorted claimed session files).find? (modifiedSincePred session) with
    | some e => some (entryPath session.projectDir e)
    | none =>
      match (discoverySorted claimed session files).find? (newFilePred session) with
      | some e => some (entryPath session.projectDir e)
      | none => none

/-- Process-wide SessionManager state: the `sessions` map and the
`claimedFiles` set. -/
structure SMState where
  sessions : List (String × InternalSession)
  claimed : List String
deriving DecidableEq, Repr

/-- `this.sessions.get(id)`. -/
def getSession : List (String × InternalSession) → String → Option InternalSession
  | [], _ => none
  | (k, v) :: rest, id => if k = id then some v else getSession rest id

/-- `this.sessions.set(id, s)`: replace the binding if present, else add. -/
def setSession : List (String × InternalSession) → String → InternalSession →
    List (String × InternalSession)
  | [], id, v => [(id, v)]
  | (k, w) :: rest, id, v =>
    if k = id then (id, v) :: rest else (k, w) :: setSession rest id v

/-- `this.sessions.delete(id)`. -/
def deleteSession : List (String × InternalSession) → String →
    List (String × InternalSession)
  | [], _ => []
  | (k, w) :: rest, id =>
    if k = id then deleteSession rest id else (k, w) :: deleteSession rest id

/-- The SessionManager starts with no sessions and an empty claimed set. -/
def initialSMState : SMState := { sessions := [], claimed := [] }

/-- `snapshotJsonlFiles` from session-manager.ts: record path and mtime of
every pre-existing transcript candidate in the project directory. -/
def snapshotJsonlFiles (projectDir : String) (files : List DirEntry) :
    List (String × Int) :=
  (files.filter isJsonlCandidate).map fun e => (entryPath projectDir e, e.mtime)

/-- The synchronous prefix of one discovery call from `startWatching`, the
watcher callback or the 1-second poll: the caller first checks
`!session.watchedFile`, then `findActiveJsonlFile` filters the candidates
against `claimedFiles` as it stands when `readdir` resolves. The returned
value is the result the suspended async call will eventually deliver: after
this point the call awaits `Promise.all(stat(...))` and `readFile`, during
which other discoveries may run against the same claimed set. -/
def discStart (st : SMState) (id : String) (files : List DirEntry) :
    Option String :=
  match getSession st.sessions id with
  | none => none
  | some s =>
    match s.watchedFile with
    | some _ => none
    | none => findActiveJsonlFile st.claimed s files

/-- The resumption of a discovery call after its awaits: on a non-null
result the caller runs `session.watchedFile = f; this.claimedFiles.add(f)`.
Faithful to the source, nothing is re-checked at this point: neither the
claimed set nor `session.watchedFile` is consulted again, and the `add`
happens unconditionally. The map-stored session record is updated when the
session is still registered (the map holds the same object reference). -/
def discFinish (st : SMState) (id : String) (res : Option String) : SMState :=
  match res with
  | none => st
  | some p =>
    match getSession st.sessions id with
    | none => { st with claimed := p :: st.claimed }
    | some s =>
      { sessions := setSession st.sessions id { s with watchedFile := some p },
        claimed := p :: st.claimed }

/-- One discovery-claim sequence run to completion with no other discovery
interleaved between its claimed-set filter and its `claimedFiles.add`: the
composition of `discStart` and `discFinish`. In the source the two halves
are separated by await suspension points, so concurrent discoveries are the
interleavings of `discStart`/`discFinish` pairs, of which this is only the
serialized special case. -/
def tryClaim (st : SMState) (id : String) (files : List DirEntry) : SMState :=
  discFinish st id (discStart st id files)

/-- A wake of the tailer for a session that watches a file: re-read the
whole file and process it (`processJsonlUpdates` on the watched file). -/
def processSession (parse : String → Option RawRecord) (st : SMState)
    (id : String) (content : String) : SMState × List SMEvent :=
  match getSession st.sessions id with
  | none => (st, [])
  | some s =>
    match s.watchedFile with
    | none => (st, [])
    | some _ =>
      let r := processJsonlUpdates parse s content
      ({ st with sessions := setSession st.sessions id r.1 }, r.2)

/-- `stopWatching` from session-manager.ts: release the claim on the
session's watched file. -/
def stopWatching (st : SMState) (s : InternalSession) : SMState :=
  match s.watchedFile with
  | some p => { st with claimed := st.claimed.erase p }
  | none => st

/-- The `session_start` handler: build the internal session with a snapshot
of the pre-existing transcript files, store it, emit `session-start`, and
attempt the initial claim of `startWatching`. -/
def registerSession (st : SMState) (id name cwd projectDir : String)
    (startedAt : Int) (files : List DirEntry) : SMState × List SMEvent :=
  let s : InternalSession :=
    { id := id, name := name, cwd := cwd, projectDir := projectDir,
      status := "running", startedAt := startedAt, watchedFile := none,
      seenMessages := [], slugFound := false, lastTodos := none,
      inPlanMode := false, initialFileStats := snapshotJsonlFiles projectDir files }
  let st1 : SMState := { st with sessions := setSession st.sessions id s }
  (tryClaim st1 id files, [SMEvent.sessionStart id s.name cwd])

/-- Session teardown shared by the `session_end` handler, the socket `close`
handler and the `sendInput` write-failure path: stop watching (release the
claim), drop the session, emit `session-end`. -/
def endSession (st : SMState) (id : String) : SMState × List SMEvent :=
  match getSession st.sessions id with
  | none => (st, [])
  | some s =>
    let st1 := stopWatching st s
    ({ st1 with sessions := deleteSession st1.sessions id }, [SMEvent.sessionEnd id])

/-- `sendInput` from session-manager.ts. `ok1` models whether the framed
`{input, text}` socket write succeeds, `ok2` whether the delayed framed
`{input, "\r"}` write succeeds. Returns the boolean result, the new state,
the emitted events, and the frames dispatched on the spawner connection. -/
def sendInput (st : SMState) (sessionId text : String) (ok1 ok2 : Bool) :
    Bool × SMState × List SMEvent × List (String × String) :=
  match getSession st.sessions sessionId with
  | none => (false, st, [], [])
  | some _ =>
    if ok1 then
      (true, st, [],
        ("input", text) :: (if ok2 then [("input", "\r")] else []))
    else
      let r := endSession st sessionId
      (false, r.1, r.2, [])

/-- Transcript file entries used by the concrete C3 witness run. -/
def w3f1 : DirEntry := { name := "f1.jsonl", mtime := 10, content := "x \"type\":\"user\" x" }

/-- Concrete two-step run used by the C4 witness: register session `a` on
an empty directory, then let it claim `f1` when that file appears. -/
def w3state1 : SMState := (registerSession initialSMState "a" "cmd" "/w" "/p" 0 []).1

/-- Second state of the run: session `a` watches `f1`. -/
def w3state2 : SMState := tryClaim w3state1 "a" [w3f1]

/-- The transcript file that appears in the disputed-file run of C3. -/
def c3file : DirEntry :=
  { name := "t.jsonl", mtime := 5, content := "x \"type\":\"user\" x" }

/-- Disputed-file run: sessions `a` and `b` register in the same project
directory while it is still empty, so neither claims anything yet. -/
def c3race1 : SMState := (registerSession initialSMState "a" "cmd" "/w" "/p" 0 []).1

/-- Both sessions registered, claimed set empty, no file watched. -/
def c3race2 : SMState := (registerSession c3race1 "b" "cmd" "/w" "/p" 0 []).1

/-- `t.jsonl` appears and both sessions' polls fire: the pending result of
session `a`'s discovery, whose claimed-set filter runs against the still
empty claimed set. -/
def c3resA : Option String := discStart c3race2 "a" [c3file]

/-- The pending result of session `b`'s overlapping discovery: its filter
also runs before either `claimedFiles.add`, against the same empty claimed
set. -/
def c3resB : Option String := discStart c3race2 "b" [c3file]

/-- Both suspended discoveries resume and commit in turn: `a` stores and
claims its result, then `b` stores and claims its identical result. -/
def c3raceFinal : SMState :=
  discFinish (discFinish c3race2 "a" c3resA) "b" c3resB

end SM

namespace Adapter

/-- JavaScript `Set.add` on the echo-suppression ledger: inserting an
already-present fingerprint is a no-op. -/
def setAdd (l : List String) (x : String) : List String :=
  if x ∈ l then l else x :: l

/-- JavaScript `Set.delete` on the echo-suppression ledger. -/
def setDelete (l : List String) (x : String) : List String :=
  l.erase x

/-- The ledger part of the inbound remote-message handler (`app.message` in
slack-app.ts, `Events.MessageCreate` in discord-app.ts): add the trimmed
text to the sent-messages set, then call `sendInput`; on failure remove the
entry again. -/
def handleRemoteMessage (ledger : List String) (text : String) (sendOk : Bool) :
    List String :=
  let l1 := setAdd ledger (jsTrim text)
  if sendOk then l1 else setDelete l1 (jsTrim text)

/-- The `message(user)` branch of `onMessage` in slack-app.ts /
discord-app.ts: if the trimmed content is in the sent-messages set, consume
the entry and drop the post (`false`); otherwise post it (`true`). -/
def onMessageUser (ledger : List String) (content : String) : List String × Bool :=
  let key := jsTrim content
  if key ∈ ledger then (setDelete ledger key, false)
  else (ledger, true)

/-- One originating surface (whose ledger receives the remote sends) and one
other subscribed surface, with their post counters for `message(user)`
events. -/
structure TwoSurfaces where
  origin : List String
  other : List String
  originPosts : Nat
  otherPosts : Nat
deriving DecidableEq, Repr

/-- Adapter-level operations: an inbound remote message on the originating
surface, or a `message(user)` event from the SessionManager delivered to
both adapters. -/
inductive AdapterOp where
  | remoteSend (text : String)
  | userEcho (content : String)
deriving DecidableEq, Repr

/-- Run one adapter operation over both surfaces. -/
def runAdapterOp (st : TwoSurfaces) : AdapterOp → TwoSurfaces
  | AdapterOp.remoteSend text =>
    { st with origin := handleRemoteMessage st.origin text true }
  | AdapterOp.userEcho content =>
    let r1 := onMessageUser st.origin content
    let r2 := onMessageUser st.other content
    { origin := r1.1, other := r2.1,
      originPosts := st.originPosts + (if r1.2 then 1 else 0),
      otherPosts := st.otherPosts + (if r2.2 then 1 else 0) }

/-- Run a sequence of adapter operations. -/
def runAdapterOps (st : TwoSurfaces) (ops : List AdapterOp) : TwoSurfaces :=
  ops.foldl runAdapterOp st

/-- The empty two-surface state. -/
def emptySurfaces : TwoSurfaces :=
  { origin := [], other := [], originPosts := 0, otherPosts := 0 }

end Adapter

namespace Relay

/-- The two relay client roles (`ClientType` in connections.ts). -/
inductive CType where
  | daemon
  | mobile
deriving DecidableEq, Repr

/-- A WebSocket handle as the registry sees it: its connection identity and
its `data.userId`. -/
structure WsRef where
  connId : Nat
  userId : String
deriving DecidableEq, Repr

/-- `ClientData` attached to a relay WebSocket. -/
structure ConnData where
  ctype : CType
  userId : String
  authenticated : Bool
  subscribed : List String
deriving DecidableEq, Repr

/-- A buffered chat message of a tracked session. -/
structure ChatMessage where
  role : String
  content : String
deriving DecidableEq, Repr

/-- `TrackedSession` in connections.ts: session metadata, the owning daemon
connection (or null), the recent-message buffer and the current todos. -/
structure TrackedSession where
  id : String
  name : String
  cwd : String
  status : String
  daemonConn : Option WsRef
  messages : List ChatMessage
  todos : List TodoItem
deriving DecidableEq, Repr

/-- The `ConnectionRegistry` state: all connections (each user's connection
set is recovered by filtering on `userId`), the tracked sessions, and the
per-user tracked-for-notification session sets. -/
structure RelayState where
  conns : List (Nat × ConnData)
  sessions : List (String × TrackedSession)
  tracked : List (String × List String)
deriving DecidableEq, Repr

/-- Frames sent over a WebSocket (`ws.send`), tagged with their fields. -/
inductive Frame where
  | sessionStatus (sessionId status : String)
  | sessionMessage (sessionId role content : String)
  | sessionTodos (sessionId : String) (todos : List TodoItem)
  | sessionOutput (sessionId data : String)
  | sessionsList (sessions : List TrackedSession)
  | sendInputFrame (sessionId text : String)
  | errorMsg (message : String)
deriving DecidableEq, Repr

/-- A push notification dispatched through the push service. -/
structure Push where
  userId : String
  sessionId : String
  kind : String
  name : String
deriving DecidableEq, Repr

/-- The session id a frame carries session data for (`sessions_list`,
`send_input` routing and `error` frames carry no per-session output
data). -/
def frameSession : Frame → Option String
  | Frame.sessionStatus sid _ => some sid
  | Frame.sessionMessage sid _ _ => some sid
  | Frame.sessionTodos sid _ => some sid
  | Frame.sessionOutput sid _ => some sid
  | Frame.sessionsList _ => none
  | Frame.sendInputFrame _ _ => none
  | Frame.errorMsg _ => none

/-- `this.userConnections.get(userId)`: the connections of one user. -/
def userConns (st : RelayState) (userId : String) : List (Nat × ConnData) :=
  st.conns.filter fun c => c.2.userId == userId

/-- `notifyMobileClients` from connections.ts: send to every authenticated
mobile connection of the user. -/
def notifyMobileClients (st : RelayState) (userId : String) (f : Frame) :
    List (Nat × Frame) :=
  ((userConns st userId).filter fun c =>
    c.2.ctype == CType.mobile && c.2.authenticated).map fun c => (c.1, f)

/-- `notifySubscribedClients` from connections.ts: send to every mobile
connection of the user that is subscribed to the session. -/
def notifySubscribedClients (st : RelayState) (userId sessionId : String)
    (f : Frame) : List (Nat × Frame) :=
  ((userConns st userId).filter fun c =>
    c.2.ctype == CType.mobile && c.2.subscribed.contains sessionId).map fun c => (c.1, f)

/-- `getSessionsForUser` from connections.ts: sessions whose owning daemon
connection belongs to the user. -/
def getSessionsForUser (st : RelayState) (userId : String) : List TrackedSession :=
  (st.sessions.filter fun kv =>
    match kv.2.daemonConn with
    | some r => r.userId == userId
    | none => false).map Prod.snd

/-- `registerSession` from connections.ts: store the tracked session with an
empty buffer, then broadcast the user's authoritative `sessions_list`. -/
def registerSession (st : RelayState) (ws : WsRef) (sessionId name cwd : String) :
    RelayState × List (Nat × Frame) :=
  let sess : TrackedSession :=
    { id := sessionId, name := name, cwd := cwd, status := "running",
      daemonConn := some ws, messages := [], todos := [] }
  let st1 : RelayState := { st with sessions := alistSet st.sessions sessionId sess }
  (st1, notifyMobileClients st1 ws.userId
    (Frame.sessionsList (getSessionsForUser st1 ws.userId)))

/-- `updateSessionStatus` from connections.ts: only a session with a live
daemon connection is updated; subscribed viewers of the owner are
notified. -/
def updateSessionStatus (st : RelayState) (sessionId status : String) :
    RelayState × List (Nat × Frame) :=
  match alistGet st.sessions sessionId with
  | none => (st, [])
  | some sess =>
    match sess.daemonConn with
    | none => (st, [])
    | some r =>
      let sess2 : TrackedSession := { sess with status := status }
      let st1 : RelayState := { st with sessions := alistSet st.sessions sessionId sess2 }
      (st1, notifySubscribedClients st1 r.userId sessionId
        (Frame.sessionStatus sessionId status))

/-- The bounded push of `addMessage`: append, then keep only the last 100
(`messages.slice(-100)`). -/
def pushCapped (buf : List ChatMessage) (m : ChatMessage) : List ChatMessage :=
  let m1 := buf ++ [m]
  if m1.length > 100 then m1.drop (m1.length - 100) else m1

/-- `addMessage` from connections.ts. -/
def addMessage (st : RelayState) (sessionId role content : String) : RelayState :=
  match alistGet st.sessions sessionId with
  | none => st
  | some sess =>
    let sess2 : TrackedSession :=
      { sess with messages := pushCapped sess.messages { role := role, content := content } }
    { st with sessions := alistSet st.sessions sessionId sess2 }

/-- `subscribeToSession` from connections.ts: refuse when the session is
unknown or its owning daemon connection is absent or belongs to another
user; otherwise record the subscription, send the current status, replay the
buffered messages in order, and send the todos when nonempty. -/
def subscribeToSession (st : RelayState) (c : Nat) (sessionId : String) :
    Bool × RelayState × List (Nat × Frame) :=
  match alistGet st.conns c with
  | none => (false, st, [])
  | some cd =>
    match alistGet st.sessions sessionId with
    | none => (false, st, [])
    | some sess =>
      if (match sess.daemonConn with
          | some r => r.userId == cd.userId
          | none => false) then
        let cd2 : ConnData :=
          { cd with subscribed :=
              if cd.subscribed.contains sessionId then cd.subscribed
              else sessionId :: cd.subscribed }
        let st1 : RelayState := { st with conns := alistSet st.conns c cd2 }
        (true, st1,
          (c, Frame.sessionStatus sessionId sess.status) ::
          (sess.messages.map fun m => (c, Frame.sessionMessage sessionId m.role m.content)) ++
          (if sess.todos.isEmpty then [] else [(c, Frame.sessionTodos sessionId sess.todos)]))
      else (false, st, [])

/-- `unsubscribeFromSession` from connections.ts. -/
def unsubscribeFromSession (st : RelayState) (c : Nat) (sessionId : String) :
    RelayState :=
  match alistGet st.conns c with
  | none => st
  | some cd =>
    let cd2 : ConnData := { cd with subscribed := cd.subscribed.erase sessionId }
    { st with conns := alistSet st.conns c cd2 }

/-- `trackSession` from connections.ts. -/
def trackSession (st : RelayState) (userId sessionId : String) : RelayState :=
  let cur := (alistGet st.tracked userId).getD []
  let cur2 := if cur.contains sessionId then cur else sessionId :: cur
  { st with tracked := alistSet st.tracked userId cur2 }

/-- `untrackSession` from connections.ts. -/
def untrackSession (st : RelayState) (userId sessionId : String) : RelayState :=
  match alistGet st.tracked userId with
  | none => st
  | some cur => { st with tracked := alistSet st.tracked userId (cur.erase sessionId) }

/-- `isSessionTracked` from connections.ts. -/
def isSessionTracked (st : RelayState) (userId sessionId : String) : Bool :=
  ((alistGet st.tracked userId).getD []).contains sessionId

/-- Whether a tracked session is owned by connection `c`
(`session.daemonWs === ws`). -/
def ownedBy (c : Nat) (sess : TrackedSession) : Bool :=
  match sess.daemonConn with
  | some r => r.connId == c
  | none => false

/-- The in-place mutation of the daemon-disconnect loop in
`removeConnection`: an owned session loses its daemon connection and is
marked ended. -/
def endOwned (c : Nat) (sess : TrackedSession) : TrackedSession :=
  if ownedBy c sess then { sess with daemonConn := none, status := "ended" } else sess

/-- `removeConnection` from connections.ts: drop the connection from the
user's set; if it was a daemon, mark each session it owned as ended with no
daemon connection and notify the user's mobile clients of each ended
session. No push notification is dispatched on this path. -/
def removeConnection (st : RelayState) (c : Nat) : RelayState × List (Nat × Frame) :=
  match alistGet st.conns c with
  | none => (st, [])
  | some cd =>
    let st1 : RelayState := { st with conns := alistRemove st.conns c }
    if cd.ctype == CType.daemon then
      let st2 : RelayState :=
        { st1 with sessions := st1.sessions.map fun kv => (kv.1, endOwned c kv.2) }
      (st2,
        ((st1.sessions.filter fun kv => ownedBy c kv.2).map fun kv =>
          notifyMobileClients st2 cd.userId (Frame.sessionStatus kv.1 "ended")).flatten)
    else (st1, [])

/-- Messages a daemon connection sends after authentication (the
`handleDaemonMessage` cases of the relay server). -/
inductive DaemonMsg where
  | sessionStart (sessionId name cwd : String)
  | sessionOutput (sessionId data : String)
  | sessionStatus (sessionId status : String)
  | sessionEnd (sessionId : String)
  | sessionMessage (sessionId role content : String)
deriving DecidableEq, Repr

/-- Messages a mobile connection sends after authentication (the
`handleMobileMessage` cases of the relay server). -/
inductive MobileMsg where
  | listSessions
  | subscribe (sessionId : String)
  | unsubscribe (sessionId : String)
  | sendInputMsg (sessionId text : String)
  | track (sessionId : String)
  | untrack (sessionId : String)
deriving DecidableEq, Repr

/-- Modelled from the spec: the relay server file in the repository handles
`session_output` but carries no `session_message` case, although the daemon
relay client sends `session_message` and the registry provides `addMessage`
for buffering; per the spec, a workstation `message` event is buffered and
forwarded only to viewers of the same user that are subscribed to the
session. -/
def handleSessionMessageSpec (st : RelayState) (userId sessionId role content : String) :
    RelayState × List (Nat × Frame) :=
  let st1 := addMessage st sessionId role content
  (st1, notifySubscribedClients st1 userId sessionId
    (Frame.sessionMessage sessionId role content))

/-- `handleDaemonMessage` from the relay server: every case requires an
authenticated connection; `session_status` pushes an idle notification for
tracked sessions of the user, `session_end` an ended notification. -/
def handleDaemonMessage (st : RelayState) (c : Nat) (msg : DaemonMsg) :
    RelayState × List (Nat × Frame) × List Push :=
  match alistGet st.conns c with
  | none => (st, [], [])
  | some cd =>
    if ¬ cd.authenticated then (st, [], [])
    else
      match msg with
      | DaemonMsg.sessionStart sid name cwd =>
        let r := registerSession st { connId := c, userId := cd.userId } sid name cwd
        (r.1, r.2, [])
      | DaemonMsg.sessionOutput sid data =>
        (st, notifySubscribedClients st cd.userId sid (Frame.sessionOutput sid data), [])
      | DaemonMsg.sessionStatus sid status =>
        let r := updateSessionStatus st sid status
        let pushes :=
          if status == "idle" then
            match (getSessionsForUser r.1 cd.userId).find? (fun s => s.id == sid) with
            | some sess =>
              if isSessionTracked r.1 cd.userId sid then
                [{ userId := cd.userId, sessionId := sid, kind := "idle", name := sess.name }]
              else []
            | none => []
          else []
        (r.1, r.2, pushes)
      | DaemonMsg.sessionEnd sid =>
        let sessBefore := (getSessionsForUser st cd.userId).find? (fun s => s.id == sid)
        let r := updateSessionStatus st sid "ended"
        let pushes :=
          match sessBefore with
          | some sess =>
            if isSessionTracked st cd.userId sid then
              [{ userId := cd.userId, sessionId := sid, kind := "ended", name := sess.name }]
            else []
          | none => []
        (r.1, r.2, pushes)
      | DaemonMsg.sessionMessage sid role content =>
        let r := handleSessionMessageSpec st cd.userId sid role content
        (r.1, r.2, [])

/-- `handleMobileMessage` from the relay server: every case requires an
authenticated connection; a refused `subscribe` is answered with an `error`
frame, `send_input` is routed to the owning daemon connection or answered
with an `error` frame. -/
def handleMobileMessage (st : RelayState) (c : Nat) (msg : MobileMsg) :
    RelayState × List (Nat × Frame) × List Push :=
  match alistGet st.conns c with
  | none => (st, [], [])
  | some cd =>
    if ¬ cd.authenticated then (st, [], [])
    else
      match msg with
      | MobileMsg.listSessions =>
        (st, [(c, Frame.sessionsList (getSessionsForUser st cd.userId))], [])
      | MobileMsg.subscribe sid =>
        let r := subscribeToSession st c sid
        if r.1 then (r.2.1, r.2.2, [])
        else (r.2.1, r.2.2 ++ [(c, Frame.errorMsg "Session not found or not accessible")], [])
      | MobileMsg.unsubscribe sid =>
        (unsubscribeFromSession st c sid, [], [])
      | MobileMsg.sendInputMsg sid text =>
        match (alistGet st.sessions sid).bind (fun sess => sess.daemonConn) with
        | some r => (st, [(r.connId, Frame.sendInputFrame sid text)], [])
        | none => (st, [(c, Frame.errorMsg "Session daemon not connected")], [])
      | MobileMsg.track sid => (trackSession st cd.userId sid, [], [])
      | MobileMsg.untrack sid => (untrackSession st cd.userId sid, [], [])

/-- One relay-server operation after the connections are authenticated: a
daemon message, a mobile message, or a connection close. -/
inductive ROp where
  | daemon (c : Nat) (m : DaemonMsg)
  | mobile (c : Nat) (m : MobileMsg)
  | disconnect (c : Nat)
deriving DecidableEq, Repr

/-- Evaluate one relay operation. -/
def runOp (st : RelayState) : ROp → RelayState × List (Nat × Frame) × List Push
  | ROp.daemon c m => handleDaemonMessage st c m
  | ROp.mobile c m => handleMobileMessage st c m
  | ROp.disconnect c =>
    let r := removeConnection st c
    (r.1, r.2, [])

/-- Evaluate a sequence of relay operations, concatenating the frames and
pushes in order. -/
def runOps (st : RelayState) : List ROp → RelayState × List (Nat × Frame) × List Push
  | [] => (st, [], [])
  | op :: rest =>
    let r := runOp st op
    let r2 := runOps r.1 rest
    (r2.1, r.2.1 ++ r2.2.1, r.2.2 ++ r2.2.2)

/-- The frames of an output stream delivered to connection `v` that carry
session data of session `sid`. -/
def framesFor (v : Nat) (sid : String) (out : List (Nat × Frame)) : List Frame :=
  (out.filter fun cf => cf.1 == v && frameSession cf.2 == some sid).map Prod.snd

/-- Whether an operation is a daemon `session_start` announcement for the
given session id. -/
def isStartFor (sid : String) : ROp → Bool
  | ROp.daemon _ (DaemonMsg.sessionStart sid2 _ _) => sid2 == sid
  | _ => false

/-- Isolation invariant for C8: connection `v` is a mobile viewer of user
`u` not subscribed to session `sid`, and `sid` is owned (if at all) by a
daemon reference of a different user whose connection data also belongs to a
different user. -/
def ViewerIsolated (v : Nat) (u : String) (sid : String) (st : RelayState) : Prop :=
  (∀ cd, (v, cd) ∈ st.conns →
     cd.userId = u ∧ cd.ctype = CType.mobile ∧ sid ∉ cd.subscribed) ∧
  (∀ sess r, (sid, sess) ∈ st.sessions → sess.daemonConn = some r →
     r.userId ≠ u ∧ ∀ cdc, (r.connId, cdc) ∈ st.conns → cdc.userId ≠ u)

/-- Concrete relay state used by closed witnesses and counterexamples: an
authenticated daemon connection 0 and mobile connection 1 of user `u`, one
running session `s` owned by the daemon, tracked for notification by `u`. -/
def c9state : RelayState :=
  { conns :=
      [(0, { ctype := CType.daemon, userId := "u", authenticated := true,
             subscribed := [] }),
       (1, { ctype := CType.mobile, userId := "u", authenticated := true,
             subscribed := [] })],
    sessions :=
      [("s", { id := "s", name := "n", cwd := "/w", status := "running",
               daemonConn := some { connId := 0, userId := "u" },
               messages := [], todos := [] })],
    tracked := [("u", ["s"])] }

/-- The no-prior-subscription invariant for C6: connection `v` is not yet
subscribed to session `sid`. -/
def NotSubscribed (v : Nat) (sid : String) (st : RelayState) : Prop :=
  ∀ cd, (v, cd) ∈ st.conns → sid ∉ cd.subscribed

/-- Concrete relay state for the C8 witness: a daemon of user `w` owning
session `s` with buffered history, and a viewer of a different user `u2`. -/
def c8state : RelayState :=
  { conns :=
      [(0, { ctype := CType.daemon, userId := "w", authenticated := true,
             subscribed := [] }),
       (2, { ctype := CType.mobile, userId := "u2", authenticated := true,
             subscribed := [] })],
    sessions :=
      [("s", { id := "s", name := "n", cwd := "/w", status := "running",
               daemonConn := some { connId := 0, userId := "w" },
               messages := [{ role := "user", content := "hello" }], todos := [] })],
    tracked := [] }

/-- The tracked session of `c6state`. -/
def c6sess : TrackedSession :=
  { id := "s", name := "n", cwd := "/w", status := "running",
    daemonConn := some { connId := 0, userId := "u" },
    messages := [{ role := "assistant", content := "m1" },
                 { role := "assistant", content := "m0" }],
    todos := [{ content := "t", status := "pending",
                activeForm := some "doing t" }] }

/-- Concrete relay state for the C6 witness: a daemon and a not-yet-subscribed
mobile viewer of the same user, plus a session owned by the daemon with
buffered history and nonempty todos. -/
def c6state : RelayState :=
  { conns :=
      [(0, { ctype := CType.daemon, userId := "u", authenticated := true,
             subscribed := [] }),
       (1, { ctype := CType.mobile, userId := "u", authenticated := true,
             subscribed := [] })],
    sessions := [("s", c6sess)],
    tracked := [] }

/-- Operations before the subscribe in the C6 witness run. -/
def c6pre : List ROp :=
  [ROp.daemon 0 (DaemonMsg.sessionStatus "s" "running")]

/-- Operations after the subscribe in the C6 witness run. -/
def c6post : List ROp :=
  [ROp.daemon 0 (DaemonMsg.sessionMessage "s" "assistant" "m2")]

/-- Message list for the buffer-bound part of the C6 witness. -/
def c6msgs : List Afk.Relay.ChatMessage :=
  [{ role := "user", content := "a" }, { role := "assistant", content := "b" }]

end Relay

end Afk

namespace Afk
namespace SM

variable (parse : String → Option RawRecord)

theorem processLine_of_seen {s : InternalSession} {line : String}
    (h : line ∈ s.seenMessages) : processLine parse s line = (s, []) := by
  simp [processLine, h]

theorem seenMessages_processLine (s : InternalSession) (line : String) :
    (processLine parse s line).1.seenMessages =
      if line ∈ s.seenMessages then s.seenMessages else line :: s.seenMessages := by
  by_cases h : line ∈ s.seenMessages
  · simp [processLine, h]
  · simp only [processLine, if_neg h, if_pos]
    repeat' split
    all_goals simp [h]

theorem processLine_mem_seen (s : InternalSession) (line : String) :
    line ∈ (processLine parse s line).1.seenMessages := by
  rw [seenMessages_processLine]
  by_cases h : line ∈ s.seenMessages <;> simp [h]

theorem processLine_seen_mono {s : InternalSession} {line l : String}
    (h : l ∈ s.seenMessages) : l ∈ (processLine parse s line).1.seenMessages := by
  rw [seenMessages_processLine]
  by_cases hl : line ∈ s.seenMessages <;> simp [hl, h]

theorem processFoldl_fst (lines : List String) :
    ∀ (s : InternalSession) (acc : List SMEvent),
      (lines.foldl
        (fun t line =>
          let step := processLine parse t.1 line
          (step.1, t.2 ++ step.2)) (s, acc)).1 =
      lines.foldl (fun t line => (processLine parse t line).1) s := by
  induction lines with
  | nil => intro s acc; rfl
  | cons l ls ih => intro s acc; simp only [List.foldl_cons]; exact ih _ _

theorem seen_mono_foldl (s : InternalSession) (lines : List String) {l : String}
    (h : l ∈ s.seenMessages) :
    l ∈ (lines.foldl (fun t line => (processLine parse t line).1) s).seenMessages := by
  induction lines generalizing s with
  | nil => exact h
  | cons x xs ih => exact ih _ (processLine_seen_mono parse h)

theorem mem_seen_foldl (s : InternalSession) (lines : List String) {l : String}
    (h : l ∈ lines) :
    l ∈ (lines.foldl (fun t line => (processLine parse t line).1) s).seenMessages := by
  induction lines generalizing s with
  | nil => cases h
  | cons x xs ih =>
    rcases List.mem_cons.mp h with rfl | hx
    · exact seen_mono_foldl parse _ xs (processLine_mem_seen parse s l)
    · exact ih _ hx

theorem processJsonlUpdates_state_seen (s : InternalSession) (content : String) :
    ∀ l ∈ (content.splitOn "\n").filter (fun l => l ≠ ""),
      l ∈ (processJsonlUpdates parse s content).1.seenMessages := by
  intro l hl
  unfold processJsonlUpdates
  rw [processFoldl_fst]
  exact mem_seen_foldl parse s _ hl

theorem foldl_all_seen {s : InternalSession} {lines : List String}
    (h : ∀ l ∈ lines, l ∈ s.seenMessages) :
    lines.foldl
      (fun t line =>
        let step := processLine parse t.1 line
        (step.1, t.2 ++ step.2)) (s, ([] : List SMEvent)) = (s, []) := by
  induction lines with
  | nil => rfl
  | cons x xs ih =>
    have hx : x ∈ s.seenMessages := h x (List.mem_cons_self x xs)
    simp only [List.foldl_cons, processLine_of_seen parse hx]
    exact ih (fun l hl => h l (List.mem_cons_of_mem x hl))

/-- C1: a transcript record already in the session's seen-set produces no
events and leaves the tailer state unchanged; every processed record enters
the seen-set; consequently re-reading the whole claimed file a second time
(as the tailer does on every wake) emits no events at all, so the normalized
events derived from a record are emitted at most once per session. -/
theorem c1_record_dedup (parse : String → Option RawRecord)
    (s : InternalSession) (line : String) (content : String) :
    (line ∈ s.seenMessages → processLine parse s line = (s, [])) ∧
    line ∈ (processLine parse s line).1.seenMessages ∧
    (processJsonlUpdates parse (processJsonlUpdates parse s content).1 content).2 = [] := by
  refine ⟨fun h => processLine_of_seen parse h, processLine_mem_seen parse s line, ?_⟩
  have h := foldl_all_seen parse
    (fun l hl => processJsonlUpdates_state_seen parse s content l hl)
  have h2 : processJsonlUpdates parse ((processJsonlUpdates parse s content).1) content
      = ((processJsonlUpdates parse s content).1, []) := h
  rw [h2]

/-- Closed witness for `c1_record_dedup`: a concrete session state whose
seen-set already holds the record; the record is skipped and the single-line
file re-read emits nothing. -/
theorem c1_record_dedup_witness :
    processLine (fun _ => none) witnessSession "r1" = (witnessSession, []) ∧
    "r1" ∈ (processLine (fun _ => none) witnessSession "r1").1.seenMessages ∧
    (processJsonlUpdates (fun _ => none)
      (processJsonlUpdates (fun _ => none) witnessSession "r1").1 "r1").2 = [] := by
  refine ⟨(c1_record_dedup (fun _ => none) witnessSession "r1" "r1").1 ?_,
    (c1_record_dedup (fun _ => none) witnessSession "r1" "r1").2.1,
    (c1_record_dedup (fun _ => none) witnessSession "r1" "r1").2.2⟩
  simp [witnessSession]

theorem find?_sorted_mtime_max {p : DirEntry → Bool} :
    ∀ {l : List DirEntry} {a : DirEntry}, List.Sorted mtimeDesc l →
      l.find? p = some a → ∀ b ∈ l, p b = true → b.mtime ≤ a.mtime := by
  intro l
  induction l with
  | nil => intro a _ hf; cases hf
  | cons x xs ih =>
    intro a hs hf b hb hpb
    by_cases hx : p x
    · rw [List.find?_cons_of_pos _ hx] at hf
      cases hf
      rcases List.mem_cons.mp hb with rfl | hbx
      · exact le_refl _
      · exact (List.sorted_cons.mp hs).1 b hbx
    · rw [List.find?_cons_of_neg _ hx] at hf
      rcases List.mem_cons.mp hb with rfl | hbx
      · exact absurd hpb hx
      · exact ih (List.sorted_cons.mp hs).2 hf b hbx hpb

theorem mem_discoveryCands {claimed : List String} {session : InternalSession}
    {files : List DirEntry} {e : DirEntry}
    (he : e ∈ discoveryCands claimed session files) :
    e ∈ files ∧ isJsonlCandidate e = true ∧
      entryPath session.projectDir e ∉ claimed := by
  have h1 := List.mem_of_mem_filter he
  have h2 := List.of_mem_filter he
  refine ⟨List.mem_of_mem_filter h1, List.of_mem_filter h1, ?_⟩
  intro hmem
  rw [Bool.not_eq_true', Bool.eq_false_iff] at h2
  exact h2 (by simpa [List.contains, List.elem_iff] using hmem)

theorem mem_discoveryCands_of {claimed : List String} {session : InternalSession}
    {files : List DirEntry} {e : DirEntry} (hef : e ∈ files)
    (hej : isJsonlCandidate e = true)
    (hnc : entryPath session.projectDir e ∉ claimed) :
    e ∈ discoveryCands claimed session files := by
  refine List.mem_filter.mpr ⟨List.mem_filter.mpr ⟨hef, hej⟩, ?_⟩
  simp only [Bool.not_eq_true']
  rw [Bool.eq_false_iff]
  intro hcon
  exact hnc (by simpa [List.contains, List.elem_iff] using hcon)

theorem mem_discoverySorted {claimed : List String} {session : InternalSession}
    {files : List DirEntry} {e : DirEntry} :
    e ∈ discoverySorted claimed session files ↔
      e ∈ discoveryCands claimed session files :=
  (List.perm_insertionSort mtimeDesc _).mem_iff

/-- C2: discovery never returns a claimed path; any returned path names a
transcript candidate whose content has a conversation record and which, if
it was in the snapshot, was modified strictly after its snapshot mtime; and
whenever some unclaimed modified-since-snapshot candidate with a
conversation record exists, the returned file is such a candidate of maximal
mtime (so files absent from the snapshot are only considered after resumed
ones). -/
theorem c2_transcript_discovery (claimed : List String) (session : InternalSession)
    (files : List DirEntry) :
    (∀ p, findActiveJsonlFile claimed session files = some p →
       p ∉ claimed ∧
       ∃ e ∈ files, entryPath session.projectDir e = p ∧ isJsonlCandidate e = true ∧
         hasConversationMessages e.content = true ∧
         ∀ m0, statLookup session.initialFileStats p = some m0 → m0 < e.mtime) ∧
    (∀ e ∈ files, isJsonlCandidate e = true →
       entryPath session.projectDir e ∉ claimed →
       modifiedSincePred session e = true →
       ∃ e', e' ∈ files ∧ isJsonlCandidate e' = true ∧
         modifiedSincePred session e' = true ∧
         findActiveJsonlFile claimed session files =
           some (entryPath session.projectDir e') ∧
         e.mtime ≤ e'.mtime) := by
  constructor
  · intro p hp
    unfold findActiveJsonlFile at hp
    by_cases hemp : (discoveryCands claimed session files).isEmpty
    · rw [if_pos hemp] at hp; cases hp
    · rw [if_neg hemp] at hp
      cases hf1 : (discoverySorted claimed session files).find? (modifiedSincePred session) with
      | some e =>
        rw [hf1] at hp
        cases hp
        have hmem : e ∈ discoveryCands claimed session files :=
          mem_discoverySorted.mp (List.mem_of_find?_eq_some hf1)
        obtain ⟨hef, hej, hnc⟩ := mem_discoveryCands hmem
        have hpred := List.find?_some hf1
        unfold modifiedSincePred at hpred
        cases hlk : statLookup session.initialFileStats (entryPath session.projectDir e) with
        | none => rw [hlk] at hpred; cases hpred
        | some m0 =>
          rw [hlk] at hpred
          have hlt : m0 < e.mtime := of_decide_eq_true ((Bool.and_eq_true _ _).mp hpred).1
          have hcvt : hasConversationMessages e.content = true :=
            ((Bool.and_eq_true _ _).mp hpred).2
          exact ⟨hnc, e, hef, rfl, hej, hcvt, fun m1 hm1 => by
            cases hm1; exact hlt⟩
      | none =>
        rw [hf1] at hp
        cases hf2 : (discoverySorted claimed session files).find? (newFilePred session) with
        | some e =>
          rw [hf2] at hp
          cases hp
          have hmem : e ∈ discoveryCands claimed session files :=
            mem_discoverySorted.mp (List.mem_of_find?_eq_some hf2)
          obtain ⟨hef, hej, hnc⟩ := mem_discoveryCands hmem
          have hpred := List.find?_some hf2
          unfold newFilePred at hpred
          have hnone : statLookup session.initialFileStats
              (entryPath session.projectDir e) = none :=
            Option.isNone_iff_eq_none.mp ((Bool.and_eq_true _ _).mp hpred).1
          have hcvt : hasConversationMessages e.content = true :=
            ((Bool.and_eq_true _ _).mp hpred).2
          exact ⟨hnc, e, hef, rfl, hej, hcvt, fun m1 hm1 => by
            rw [hnone] at hm1; cases hm1⟩

        | none => rw [hf2] at hp; cases hp
  · intro e hef hej hnc hmod
    have hecand : e ∈ discoveryCands claimed session files :=
      mem_discoveryCands_of hef hej hnc
    have hemp : (discoveryCands claimed session files).isEmpty = false := by
      rw [Bool.eq_false_iff]
      intro h
      exact List.ne_nil_of_mem hecand (List.isEmpty_iff.mp h)
    have hesorted : e ∈ discoverySorted claimed session files :=
      mem_discoverySorted.mpr hecand
    have hfs : ((discoverySorted claimed session files).find?
        (modifiedSincePred session)).isSome :=
      List.find?_isSome.mpr ⟨e, hesorted, hmod⟩
    cases hf1 : (discoverySorted claimed session files).find? (modifiedSincePred session) with
    | none => rw [hf1] at hfs; cases hfs
    | some a =>
      have hamem : a ∈ discoveryCands claimed session files :=
        mem_discoverySorted.mp (List.mem_of_find?_eq_some hf1)
      obtain ⟨haf, haj, _⟩ := mem_discoveryCands hamem
      have hamod := List.find?_some hf1
      have hmax := find?_sorted_mtime_max
        (List.sorted_insertionSort mtimeDesc _) hf1 e hesorted hmod
      refine ⟨a, haf, haj, hamod, ?_, hmax⟩
      unfold findActiveJsonlFile
      rw [if_neg (by rw [hemp]; exact Bool.false_ne_true), hf1]

/-- Closed witness for `c2_transcript_discovery`: a snapshot file modified
after its snapshot mtime and containing a conversation record is selected,
and the selected path satisfies all discovery guarantees. -/
theorem c2_transcript_discovery_witness :
    ("/p/old.jsonl" : String) ∉ ([] : List String) ∧
    ∃ e ∈ [DirEntry.mk "old.jsonl" 10 "x \"type\":\"user\" x"],
      entryPath "/p" e = "/p/old.jsonl" ∧ isJsonlCandidate e = true ∧
      hasConversationMessages e.content = true ∧
      ∀ m0, statLookup [("/p/old.jsonl", (5 : Int))] "/p/old.jsonl" = some m0 →
        m0 < e.mtime := by
  have h := (c2_transcript_discovery []
    { witnessSession with initialFileStats := [("/p/old.jsonl", (5 : Int))] }
    [DirEntry.mk "old.jsonl" 10 "x \"type\":\"user\" x"]).1 "/p/old.jsonl" (by decide)
  exact h

theorem getSession_set (l : List (String × InternalSession)) (id : String)
    (v : InternalSession) (j : String) :
    getSession (setSession l id v) j = if j = id then some v else getSession l j := by
  induction l with
  | nil =>
    simp only [setSession, getSession]
    by_cases h : id = j
    · rw [if_pos h, if_pos h.symm]
    · rw [if_neg h, if_neg (fun hc => h hc.symm)]
  | cons kv rest ih =>
    obtain ⟨k, w⟩ := kv
    simp only [setSession]
    by_cases hk : k = id
    · rw [if_pos hk]
      subst hk
      simp only [getSession]
      by_cases h : k = j
      · rw [if_pos h, if_pos h.symm]
      · rw [if_neg h, if_neg (fun hc => h hc.symm), if_neg h]
    · rw [if_neg hk]
      simp only [getSession]
      by_cases h : k = j
      · rw [if_pos h, if_neg (fun hc => hk (h.trans hc)), if_pos h]
      · rw [if_neg h, ih, if_neg h]

theorem getSession_delete (l : List (String × InternalSession)) (id j : String) :
    getSession (deleteSession l id) j = if j = id then none else getSession l j := by
  induction l with
  | nil =>
    simp only [deleteSession, getSession]
    by_cases h : j = id
    · rw [if_pos h]
    · rw [if_neg h]
  | cons kv rest ih =>
    obtain ⟨k, w⟩ := kv
    simp only [deleteSession]
    by_cases hk : k = id
    · rw [if_pos hk, ih]
      subst hk
      simp only [getSession]
      by_cases h : j = k
      · rw [if_pos h, if_pos h]
      · rw [if_neg h, if_neg h, if_neg (fun hc => h hc.symm)]
    · rw [if_neg hk]
      simp only [getSession]
      by_cases h : k = j
      · rw [if_pos h, if_neg (fun hc => hk (h.trans hc)), if_pos h]
      · rw [if_neg h, ih, if_neg h]

theorem findActive_not_claimed {claimed : List String} {session : InternalSession}
    {files : List DirEntry} {p : String}
    (h : findActiveJsonlFile claimed session files = some p) : p ∉ claimed := by
  unfold findActiveJsonlFile at h
  by_cases hemp : (discoveryCands claimed session files).isEmpty
  · rw [if_pos hemp] at h; cases h
  · rw [if_neg hemp] at h
    cases hf1 : (discoverySorted claimed session files).find? (modifiedSincePred session) with
    | some e =>
      rw [hf1] at h
      cases h
      exact (mem_discoveryCands (mem_discoverySorted.mp (List.mem_of_find?_eq_some hf1))).2.2
    | none =>
      rw [hf1] at h
      cases hf2 : (discoverySorted claimed session files).find? (newFilePred session) with
      | some e =>
        rw [hf2] at h
        cases h
        exact (mem_discoveryCands (mem_discoverySorted.mp (List.mem_of_find?_eq_some hf2))).2.2
      | none => rw [hf2] at h; cases h

theorem watchedFile_processLine (parse2 : String → Option RawRecord)
    (s : InternalSession) (line : String) :
    (processLine parse2 s line).1.watchedFile = s.watchedFile := by
  by_cases h : line ∈ s.seenMessages
  · simp [processLine, h]
  · simp only [processLine, if_neg h, if_pos]
    repeat' split
    all_goals simp

theorem watchedFile_processJsonlUpdates (parse2 : String → Option RawRecord)
    (s : InternalSession) (content : String) :
    (processJsonlUpdates parse2 s content).1.watchedFile = s.watchedFile := by
  unfold processJsonlUpdates
  rw [processFoldl_fst]
  generalize (content.splitOn "\n").filter (fun l => l ≠ "") = lines
  induction lines generalizing s with
  | nil => rfl
  | cons x xs ih =>
    simp only [List.foldl_cons]
    rw [ih]
    exact watchedFile_processLine parse2 s x

theorem stopWatching_sessions (st : SMState) (s : InternalSession) :
    (stopWatching st s).sessions = st.sessions := by
  unfold stopWatching
  cases s.watchedFile <;> rfl

theorem stopWatching_claimed_mem {st : SMState} {s : InternalSession} {q : String}
    (hq : q ∈ st.claimed) (hne : ∀ pw, s.watchedFile = some pw → q ≠ pw) :
    q ∈ (stopWatching st s).claimed := by
  unfold stopWatching
  cases hw : s.watchedFile with
  | none => exact hq
  | some pw =>
    dsimp only
    exact (List.mem_erase_of_ne (hne pw hw)).mpr hq

/-- C3: refutation by the disputed-file interleaving. The claimed-set
filter of `findActiveJsonlFile` runs synchronously after `readdir`
resolves, but the caller's `session.watchedFile = f; claimedFiles.add(f)`
only runs after the awaited `stat`/`readFile` calls return, with no
re-check. Two sessions registered in the same project directory whose
discoveries overlap both pass the filter against the empty claimed set and
both commit: in the resulting state the two distinct live sessions watch
the same transcript file `/p/t.jsonl`, and the claimed set holds it twice —
against the claim (and the spec's mutual-exclusion intent) that distinct
live sessions' claimed paths differ. -/
theorem c3_disputed_file_double_claim :
    c3resA = some "/p/t.jsonl" ∧
    c3resB = some "/p/t.jsonl" ∧
    ("a" : String) ≠ "b" ∧
    (getSession c3raceFinal.sessions "a").map InternalSession.watchedFile =
      some (some "/p/t.jsonl") ∧
    (getSession c3raceFinal.sessions "b").map InternalSession.watchedFile =
      some (some "/p/t.jsonl") ∧
    c3raceFinal.claimed = ["/p/t.jsonl", "/p/t.jsonl"] := by
  refine ⟨by decide, by decide, by decide, by decide, by decide, by decide⟩

/-- C4: `sendInput` returns `true` whenever both framed writes were
dispatched; it returns `false` when the session id is unknown (leaving the
state untouched) and when the first socket write fails, in which case the
session is torn down (watcher stopped, claim released, session dropped) and
`session-end` is emitted; when the first write succeeds it returns `true`
with the `{input, text}` frame followed by the delayed `{input, "\r"}`
frame. -/
theorem c4_sendInput (st : SMState) (id text : String) (ok1 ok2 : Bool) :
    ((sendInput st id text ok1 ok2).2.2.2 = [("input", text), ("input", "\r")] →
      (sendInput st id text ok1 ok2).1 = true) ∧
    (getSession st.sessions id = none →
      sendInput st id text ok1 ok2 = (false, st, [], [])) ∧
    (getSession st.sessions id ≠ none → ok1 = false →
      sendInput st id text ok1 ok2 =
        (false, (endSession st id).1, [SMEvent.sessionEnd id], []) ∧
      getSession (endSession st id).1.sessions id = none) ∧
    (getSession st.sessions id ≠ none → ok1 = true →
      sendInput st id text ok1 ok2 =
        (true, st, [], ("input", text) :: if ok2 then [("input", "\r")] else [])) := by
  refine ⟨?_, ?_, ?_, ?_⟩
  · intro hframes
    cases hget : getSession st.sessions id with
    | none =>
      have h : sendInput st id text ok1 ok2 = (false, st, [], []) := by
        unfold sendInput; rw [hget]
      rw [h] at hframes
      cases hframes
    | some s =>
      by_cases h1 : ok1 = true
      · have h : (sendInput st id text ok1 ok2).1 = true := by
          unfold sendInput
          rw [hget]
          dsimp only
          rw [if_pos h1]
        exact h
      · have h : sendInput st id text ok1 ok2 =
            (false, (endSession st id).1, (endSession st id).2, []) := by
          unfold sendInput
          rw [hget]
          dsimp only
          rw [if_neg h1]
        rw [h] at hframes
        cases hframes
  · intro hget
    unfold sendInput
    rw [hget]
  · intro hget h1
    cases hgs : getSession st.sessions id with
    | none => exact absurd hgs hget
    | some s =>
      constructor
      · unfold sendInput endSession
        rw [hgs]
        dsimp only
        rw [if_neg (by rw [h1]; exact Bool.false_ne_true)]
      · unfold endSession
        rw [hgs]
        dsimp only
        rw [getSession_delete, if_pos rfl]
  · intro hget h1
    cases hgs : getSession st.sessions id with
    | none => exact absurd hgs hget
    | some s =>
      unfold sendInput
      rw [hgs, h1]
      dsimp only
      rw [if_pos rfl]

/-- Closed witness for `c4_sendInput`: on a concrete state with a live
session, a successful first write returns `true` with both frames, and a
failed first write returns `false`, tears the session down and emits
`session-end`. -/
theorem c4_sendInput_witness :
    sendInput w3state2 "a" "hi" true true =
      (true, w3state2, [], [("input", "hi"), ("input", "\r")]) ∧
    sendInput w3state2 "a" "hi" false true =
      (false, (endSession w3state2 "a").1, [SMEvent.sessionEnd "a"], []) := by
  have h1 := c4_sendInput w3state2 "a" "hi" true true
  have h2 := c4_sendInput w3state2 "a" "hi" false true
  exact ⟨h1.2.2.2 (by decide) rfl, (h2.2.2.1 (by decide) rfl).1⟩

end SM

namespace Adapter

/-- C5 counterexample: sending the same text twice in succession from the
originating surface and then receiving the two `message(user)` echoes yields
one post on the originating surface, not zero: the ledger is a set, so the
second insert of the same trimmed fingerprint is a no-op and only one echo
can be consumed. -/
theorem c5_echo_counterexample :
    (runAdapterOps emptySurfaces
      [AdapterOp.remoteSend "run tests", AdapterOp.remoteSend "run tests",
       AdapterOp.userEcho "run tests", AdapterOp.userEcho "run tests"]).originPosts = 1 ∧
    ¬ (runAdapterOps emptySurfaces
      [AdapterOp.remoteSend "run tests", AdapterOp.remoteSend "run tests",
       AdapterOp.userEcho "run tests", AdapterOp.userEcho "run tests"]).originPosts = 0 ∧
    (runAdapterOps emptySurfaces
      [AdapterOp.remoteSend "run tests", AdapterOp.remoteSend "run tests",
       AdapterOp.userEcho "run tests", AdapterOp.userEcho "run tests"]).otherPosts = 2 := by
  decide

/-- C5 amended: other subscribed surfaces post both `message(user)` events;
on the originating surface the duplicate fingerprint collapses in the set,
so of two identical texts sent in succession the first echo is dropped and
the second is posted (one post); for two distinct texts both echoes are
dropped on the originating surface (zero posts). -/
theorem c5_echo_set_semantics (t u : String) (ht : jsTrim t = t)
    (hu : jsTrim u = u) (hne : t ≠ u) :
    (runAdapterOps emptySurfaces
      [AdapterOp.remoteSend t, AdapterOp.remoteSend t,
       AdapterOp.userEcho t, AdapterOp.userEcho t]).originPosts = 1 ∧
    (runAdapterOps emptySurfaces
      [AdapterOp.remoteSend t, AdapterOp.remoteSend t,
       AdapterOp.userEcho t, AdapterOp.userEcho t]).otherPosts = 2 ∧
    (runAdapterOps emptySurfaces
      [AdapterOp.remoteSend t, AdapterOp.remoteSend u,
       AdapterOp.userEcho t, AdapterOp.userEcho u]).originPosts = 0 ∧
    (runAdapterOps emptySurfaces
      [AdapterOp.remoteSend t, AdapterOp.remoteSend u,
       AdapterOp.userEcho t, AdapterOp.userEcho u]).otherPosts = 2 := by
  have hne2 : ¬ (u = t) := fun hc => hne hc.symm
  refine ⟨?_, ?_, ?_, ?_⟩ <;>
    simp [runAdapterOps, runAdapterOp, handleRemoteMessage, onMessageUser,
      setAdd, setDelete, emptySurfaces, ht, hu, hne, hne2, List.erase_cons]

/-- Closed witness for `c5_echo_set_semantics` at concrete texts. -/
theorem c5_echo_set_semantics_witness :
    (runAdapterOps emptySurfaces
      [AdapterOp.remoteSend "run tests", AdapterOp.remoteSend "run tests",
       AdapterOp.userEcho "run tests", AdapterOp.userEcho "run tests"]).originPosts = 1 ∧
    (runAdapterOps emptySurfaces
      [AdapterOp.remoteSend "run tests", AdapterOp.remoteSend "run tests",
       AdapterOp.userEcho "run tests", AdapterOp.userEcho "run tests"]).otherPosts = 2 ∧
    (runAdapterOps emptySurfaces
      [AdapterOp.remoteSend "run tests", AdapterOp.remoteSend "deploy",
       AdapterOp.userEcho "run tests", AdapterOp.userEcho "deploy"]).originPosts = 0 ∧
    (runAdapterOps emptySurfaces
      [AdapterOp.remoteSend "run tests", AdapterOp.remoteSend "deploy",
       AdapterOp.userEcho "run tests", AdapterOp.userEcho "deploy"]).otherPosts = 2 :=
  c5_echo_set_semantics "run tests" "deploy" (by decide) (by decide) (by decide)

end Adapter

namespace Relay

theorem alistGet_set {α β : Type} [DecidableEq α] (l : List (α × β)) (a : α)
    (v : β) (j : α) :
    alistGet (alistSet l a v) j = if j = a then some v else alistGet l j := by
  induction l with
  | nil =>
    simp only [alistSet, alistGet]
    by_cases h : a = j
    · rw [if_pos h, if_pos h.symm]
    · rw [if_neg h, if_neg (fun hc => h hc.symm)]
  | cons kv rest ih =>
    obtain ⟨k, w⟩ := kv
    simp only [alistSet]
    by_cases hk : k = a
    · rw [if_pos hk]
      subst hk
      simp only [alistGet]
      by_cases h : k = j
      · rw [if_pos h, if_pos h.symm]
      · rw [if_neg h, if_neg (fun hc => h hc.symm), if_neg h]
    · rw [if_neg hk]
      simp only [alistGet]
      by_cases h : k = j
      · rw [if_pos h, if_neg (fun hc => hk (h.trans hc)), if_pos h]
      · rw [if_neg h, ih, if_neg h]

theorem alistGet_remove {α β : Type} [DecidableEq α] (l : List (α × β)) (a j : α) :
    alistGet (alistRemove l a) j = if j = a then none else alistGet l j := by
  induction l with
  | nil =>
    simp only [alistRemove, alistGet]
    by_cases h : j = a
    · rw [if_pos h]
    · rw [if_neg h]
  | cons kv rest ih =>
    obtain ⟨k, w⟩ := kv
    simp only [alistRemove]
    by_cases hk : k = a
    · rw [if_pos hk, ih]
      subst hk
      simp only [alistGet]
      by_cases h : j = k
      · rw [if_pos h, if_pos h]
      · rw [if_neg h, if_neg h, if_neg (fun hc => h hc.symm)]
    · rw [if_neg hk]
      simp only [alistGet]
      by_cases h : k = j
      · rw [if_pos h, if_neg (fun hc => hk (h.trans hc)), if_pos h]
      · rw [if_neg h, ih, if_neg h]

theorem alistGet_mapVal {α β : Type} [DecidableEq α] (f : β → β)
    (l : List (α × β)) (j : α) :
    alistGet (l.map fun kv => (kv.1, f kv.2)) j = (alistGet l j).map f := by
  induction l with
  | nil => rfl
  | cons kv rest ih =>
    obtain ⟨k, w⟩ := kv
    simp only [List.map_cons, alistGet]
    by_cases h : k = j
    · rw [if_pos h, if_pos h]
      rfl
    · rw [if_neg h, if_neg h, ih]

theorem alistGet_mem {α β : Type} [DecidableEq α] {l : List (α × β)} {a : α}
    {v : β} (h : alistGet l a = some v) : (a, v) ∈ l := by
  induction l with
  | nil => cases h
  | cons kv rest ih =>
    obtain ⟨k, w⟩ := kv
    simp only [alistGet] at h
    by_cases hk : k = a
    · rw [if_pos hk] at h
      cases h
      subst hk
      exact List.mem_cons_self _ _
    · rw [if_neg hk] at h
      exact List.mem_cons_of_mem _ (ih h)

theorem mem_alistSet {α β : Type} [DecidableEq α] {l : List (α × β)} {a : α}
    {v : β} {kv : α × β} (h : kv ∈ alistSet l a v) : kv = (a, v) ∨ kv ∈ l := by
  induction l with
  | nil =>
    simp only [alistSet] at h
    rcases List.mem_singleton.mp h with rfl
    exact Or.inl rfl
  | cons hd rest ih =>
    obtain ⟨k, w⟩ := hd
    simp only [alistSet] at h
    by_cases hk : k = a
    · rw [if_pos hk] at h
      rcases List.mem_cons.mp h with rfl | hmem
      · exact Or.inl rfl
      · exact Or.inr (List.mem_cons_of_mem _ hmem)
    · rw [if_neg hk] at h
      rcases List.mem_cons.mp h with rfl | hmem
      · exact Or.inr (List.mem_cons_self _ _)
      · rcases ih hmem with h1 | h2
        · exact Or.inl h1
        · exact Or.inr (List.mem_cons_of_mem _ h2)

theorem mem_alistRemove {α β : Type} [DecidableEq α] {l : List (α × β)} {a : α}
    {kv : α × β} (h : kv ∈ alistRemove l a) : kv ∈ l := by
  induction l with
  | nil => cases h
  | cons hd rest ih =>
    obtain ⟨k, w⟩ := hd
    simp only [alistRemove] at h
    by_cases hk : k = a
    · rw [if_pos hk] at h
      exact List.mem_cons_of_mem _ (ih h)
    · rw [if_neg hk] at h
      rcases List.mem_cons.mp h with rfl | hmem
      · exact List.mem_cons_self _ _
      · exact List.mem_cons_of_mem _ (ih hmem)

theorem framesFor_append (v : Nat) (sid : String) (o1 o2 : List (Nat × Frame)) :
    framesFor v sid (o1 ++ o2) = framesFor v sid o1 ++ framesFor v sid o2 := by
  simp [framesFor]

theorem framesFor_nil_of {v : Nat} {sid : String} {out : List (Nat × Frame)}
    (h : ∀ cf ∈ out, cf.1 ≠ v ∨ frameSession cf.2 ≠ some sid) :
    framesFor v sid out = [] := by
  unfold framesFor
  rw [List.filter_eq_nil_iff.mpr, List.map_nil]
  intro cf hcf
  rcases h cf hcf with h1 | h1 <;> simp [h1]

theorem framesFor_notifySubscribed {v : Nat} {sid : String} {st : RelayState}
    {userId sid2 : String} {f : Frame}
    (h : (∀ cd, (v, cd) ∈ st.conns → ¬ sid ∈ cd.subscribed) ∨ sid2 ≠ sid)
    (hf : frameSession f = some sid2) :
    framesFor v sid (notifySubscribedClients st userId sid2 f) = [] := by
  apply framesFor_nil_of
  intro cf hcf
  unfold notifySubscribedClients at hcf
  obtain ⟨c, hc, rfl⟩ := List.mem_map.mp hcf
  have hcmem := List.mem_of_mem_filter hc
  have hcprop := List.of_mem_filter hc
  have hcmem2 : c ∈ st.conns := List.mem_of_mem_filter hcmem
  rcases h with h1 | h1
  · by_cases hv : c.1 = v
    · right
      rw [hf]
      intro hcon
      have hsub : sid2 = sid := by
        have := Option.some_inj.mp hcon
        exact this
      subst hsub
      have hc2 : (v, c.2) ∈ st.conns := by
        rw [← hv]
        exact hcmem2
      have := h1 c.2 hc2
      have hcontains := ((Bool.and_eq_true _ _).mp hcprop).2
      exact this (by simpa [List.contains, List.elem_iff] using hcontains)
    · exact Or.inl hv
  · right
    rw [hf]
    intro hcon
    exact h1 (Option.some_inj.mp hcon)

theorem framesFor_constFrame {v : Nat} {sid : String} {f : Frame}
    (hf : frameSession f ≠ some sid) (cs : List (Nat × ConnData)) :
    framesFor v sid (cs.map fun c => (c.1, f)) = [] := by
  apply framesFor_nil_of
  intro cf hcf
  obtain ⟨c, _, rfl⟩ := List.mem_map.mp hcf
  exact Or.inr hf

theorem framesFor_notifyMobile_other {v : Nat} {sid : String} {st : RelayState}
    {userId : String} {f : Frame}
    (h : (∀ cd, (v, cd) ∈ st.conns → cd.userId ≠ userId) ∨ frameSession f ≠ some sid) :
    framesFor v sid (notifyMobileClients st userId f) = [] := by
  apply framesFor_nil_of
  intro cf hcf
  unfold notifyMobileClients at hcf
  obtain ⟨c, hc, rfl⟩ := List.mem_map.mp hcf
  rcases h with h1 | h1
  · by_cases hv : c.1 = v
    · left
      exfalso
      have hcmem := List.mem_of_mem_filter hc
      have hcuser := List.of_mem_filter hcmem
      have hcmem2 : c ∈ st.conns := List.mem_of_mem_filter hcmem
      have hc2 : (v, c.2) ∈ st.conns := by
        rw [← hv]; exact hcmem2
      apply h1 c.2 hc2
      have : (c.2.userId == userId) = true := hcuser
      exact of_decide_eq_true this
    · exact Or.inl hv
  · exact Or.inr h1

/-- C10: when a tracked session's stored daemon connection is null, every
subscribe request for it is refused with an `error` frame and no replay
frames are sent, no matter which user the viewer belongs to — so the
buffered history of a daemon-disconnected session is never replayed. -/
theorem c10_subscribe_disconnected (st : RelayState) (v : Nat) (sid : String)
    (cd : ConnData) (sess : TrackedSession)
    (hv : alistGet st.conns v = some cd) (hauth : cd.authenticated = true)
    (hs : alistGet st.sessions sid = some sess) (hnone : sess.daemonConn = none) :
    subscribeToSession st v sid = (false, st, []) ∧
    handleMobileMessage st v (MobileMsg.subscribe sid) =
      (st, [(v, Frame.errorMsg "Session not found or not accessible")], []) := by
  have h1 : subscribeToSession st v sid = (false, st, []) := by
    unfold subscribeToSession
    rw [hv]
    dsimp only
    rw [hs]
    dsimp only
    rw [hnone]
    simp
  refine ⟨h1, ?_⟩
  unfold handleMobileMessage
  rw [hv]
  simp [hauth, h1]

theorem sessions_subscribeToSession (st : RelayState) (c : Nat) (sid : String) :
    (subscribeToSession st c sid).2.1.sessions = st.sessions := by
  unfold subscribeToSession
  repeat' split
  all_goals rfl

theorem sessions_handleMobileMessage (st : RelayState) (c : Nat) (m : MobileMsg) :
    (handleMobileMessage st c m).1.sessions = st.sessions := by
  unfold handleMobileMessage
  cases alistGet st.conns c with
  | none => rfl
  | some cd =>
    dsimp only
    split
    · rfl
    · cases m with
      | listSessions => rfl
      | subscribe sid =>
        dsimp only
        split
        · exact sessions_subscribeToSession st c sid
        · exact sessions_subscribeToSession st c sid
      | unsubscribe sid =>
        dsimp only
        unfold unsubscribeFromSession
        cases alistGet st.conns c <;> rfl
      | sendInputMsg sid text =>
        dsimp only
        cases (alistGet st.sessions sid).bind (fun sess => sess.daemonConn) <;> rfl
      | track sid => rfl
      | untrack sid =>
        dsimp only
        unfold untrackSession
        cases alistGet st.tracked cd.userId <;> rfl

theorem endedStable_updateSessionStatus {st : RelayState} {sid : String}
    {sess0 : TrackedSession}
    (h : alistGet st.sessions sid = some sess0) (hdc : sess0.daemonConn = none)
    (_hst : sess0.status = "ended") (sid2 status : String) :
    alistGet (updateSessionStatus st sid2 status).1.sessions sid = some sess0 := by
  unfold updateSessionStatus
  by_cases he : sid2 = sid
  · subst he
    rw [h]
    dsimp only
    rw [hdc]
    exact h
  · cases h2 : alistGet st.sessions sid2 with
    | none => exact h
    | some sess2 =>
      dsimp only
      cases sess2.daemonConn with
      | none => exact h
      | some r =>
        dsimp only
        rw [alistGet_set, if_neg (fun hc => he hc.symm)]
        exact h

theorem endedStable_addMessage {st : RelayState} {sid : String}
    {sess0 : TrackedSession}
    (h : alistGet st.sessions sid = some sess0) (hdc : sess0.daemonConn = none)
    (hst : sess0.status = "ended") (sid2 role content : String) :
    ∃ sess, alistGet (addMessage st sid2 role content).sessions sid = some sess ∧
      sess.daemonConn = none ∧ sess.status = "ended" := by
  unfold addMessage
  by_cases he : sid2 = sid
  · subst he
    rw [h]
    dsimp only
    rw [alistGet_set, if_pos rfl]
    exact ⟨_, rfl, hdc, hst⟩
  · cases h2 : alistGet st.sessions sid2 with
    | none => exact ⟨sess0, h, hdc, hst⟩
    | some sess2 =>
      dsimp only
      rw [alistGet_set, if_neg (fun hc => he hc.symm)]
      exact ⟨sess0, h, hdc, hst⟩

theorem endedStable_runOp {st : RelayState} {sid : String} (op : ROp)
    (hop : isStartFor sid op = false)
    (h : ∃ sess, alistGet st.sessions sid = some sess ∧
      sess.daemonConn = none ∧ sess.status = "ended") :
    ∃ sess, alistGet (runOp st op).1.sessions sid = some sess ∧
      sess.daemonConn = none ∧ sess.status = "ended" := by
  obtain ⟨sess0, h, hdc, hst⟩ := h
  cases op with
  | mobile c m =>
    rw [show (runOp st (ROp.mobile c m)).1 = (handleMobileMessage st c m).1 from rfl]
    rw [sessions_handleMobileMessage]
    exact ⟨sess0, h, hdc, hst⟩
  | disconnect c =>
    rw [show (runOp st (ROp.disconnect c)).1 = (removeConnection st c).1 from rfl]
    unfold removeConnection
    cases hg : alistGet st.conns c with
    | none => exact ⟨sess0, h, hdc, hst⟩
    | some cd =>
      dsimp only
      split
      · rw [show (fun (kv : String × TrackedSession) => (kv.1, endOwned c kv.2)) =
            (fun kv => (kv.1, (fun v => endOwned c v) kv.2)) from rfl]
        rw [alistGet_mapVal, h]
        refine ⟨endOwned c sess0, rfl, ?_, ?_⟩ <;>
          · unfold endOwned ownedBy
            rw [hdc]
            simp [hdc, hst]
      · exact ⟨sess0, h, hdc, hst⟩
  | daemon c m =>
    rw [show (runOp st (ROp.daemon c m)).1 = (handleDaemonMessage st c m).1 from rfl]
    unfold handleDaemonMessage
    cases hg : alistGet st.conns c with
    | none => exact ⟨sess0, h, hdc, hst⟩
    | some cd =>
      dsimp only
      split
      · exact ⟨sess0, h, hdc, hst⟩
      · cases m with
        | sessionStart sid2 name cwd =>
          have hne : sid2 ≠ sid := by
            unfold isStartFor at hop
            simpa using hop
          dsimp only
          unfold registerSession
          dsimp only
          rw [alistGet_set, if_neg (fun hc => hne hc.symm)]
          exact ⟨sess0, h, hdc, hst⟩
        | sessionOutput sid2 data => exact ⟨sess0, h, hdc, hst⟩
        | sessionStatus sid2 status =>
          dsimp only
          exact ⟨sess0, endedStable_updateSessionStatus h hdc hst sid2 status, hdc, hst⟩
        | sessionEnd sid2 =>
          dsimp only
          exact ⟨sess0, endedStable_updateSessionStatus h hdc hst sid2 "ended", hdc, hst⟩
        | sessionMessage sid2 role content =>
          dsimp only
          unfold handleSessionMessageSpec
          dsimp only
          exact endedStable_addMessage h hdc hst sid2 role content

/-- C9 counterexample: while the owning daemon connection is still alive, an
explicit `session_end` message sets the stored status to ended, but a later
`session_status` message from the same connection sets it back to running —
the stored status is not monotone once ended. -/
theorem c9_counterexample :
    (alistGet (runOps c9state [ROp.daemon 0 (DaemonMsg.sessionEnd "s")]).1.sessions
        "s").map TrackedSession.status = some "ended" ∧
    (alistGet (runOps c9state
        [ROp.daemon 0 (DaemonMsg.sessionEnd "s"),
         ROp.daemon 0 (DaemonMsg.sessionStatus "s" "running")]).1.sessions
        "s").map TrackedSession.status = some "running" := by
  decide

/-- C9 amended: once the owning daemon connection is gone (the stored daemon
reference is null) and the status is ended, no later relay operation — any
`session_status`, `session_end`, `session_message`, `session_output`, mobile
message or disconnect, and any `session_start` for a different id — changes
the stored status away from ended (`updateSessionStatus` requires a live
daemon connection); only re-registration of the same session id can replace
the record. -/
theorem c9_ended_stable_without_daemon (st : RelayState) (sid : String)
    (ops : List ROp)
    (h : ∃ sess, alistGet st.sessions sid = some sess ∧
      sess.daemonConn = none ∧ sess.status = "ended")
    (hops : ∀ op ∈ ops, isStartFor sid op = false) :
    ∃ sess, alistGet (runOps st ops).1.sessions sid = some sess ∧
      sess.daemonConn = none ∧ sess.status = "ended" := by
  induction ops generalizing st with
  | nil => exact h
  | cons op rest ih =>
    rw [show (runOps st (op :: rest)).1 = (runOps (runOp st op).1 rest).1 from rfl]
    exact ih _ (endedStable_runOp op (hops op (List.mem_cons_self _ _)) h)
      (fun o ho => hops o (List.mem_cons_of_mem _ ho))

/-- Closed witness for `c9_ended_stable_without_daemon`: after the daemon of
`c9state` disconnects, a `session_status running` message leaves the session
ended. -/
theorem c9_ended_stable_witness :
    (alistGet (runOps (runOps c9state [ROp.disconnect 0]).1
        [ROp.daemon 0 (DaemonMsg.sessionStatus "s" "running")]).1.sessions
        "s").map TrackedSession.status = some "ended" := by
  obtain ⟨sess, hg, hdc, hst⟩ := c9_ended_stable_without_daemon
    (runOps c9state [ROp.disconnect 0]).1 "s"
    [ROp.daemon 0 (DaemonMsg.sessionStatus "s" "running")]
    ⟨{ id := "s", name := "n", cwd := "/w", status := "ended",
       daemonConn := none, messages := [], todos := [] }, by decide, rfl, rfl⟩
    (fun op hop => by rcases List.mem_singleton.mp hop with rfl; rfl)
  rw [hg]
  simp [hst]

/-- Closed witness for `c10_subscribe_disconnected`: after the daemon of
`c9state` disconnects, even the owning user's own viewer gets an `error` on
subscribe and no replay. -/
theorem c10_subscribe_disconnected_witness :
    subscribeToSession (runOps c9state [ROp.disconnect 0]).1 1 "s" =
      (false, (runOps c9state [ROp.disconnect 0]).1, []) ∧
    handleMobileMessage (runOps c9state [ROp.disconnect 0]).1 1
        (MobileMsg.subscribe "s") =
      ((runOps c9state [ROp.disconnect 0]).1,
       [(1, Frame.errorMsg "Session not found or not accessible")], []) :=
  c10_subscribe_disconnected _ 1 "s"
    { ctype := CType.mobile, userId := "u", authenticated := true, subscribed := [] }
    { id := "s", name := "n", cwd := "/w", status := "ended", daemonConn := none,
      messages := [], todos := [] }
    (by decide) rfl (by decide) rfl

theorem mem_alistRemove_of_ne {α β : Type} [DecidableEq α] {l : List (α × β)}
    {a : α} {kv : α × β} (h : kv ∈ l) (hne : kv.1 ≠ a) : kv ∈ alistRemove l a := by
  induction l with
  | nil => cases h
  | cons hd rest ih =>
    obtain ⟨k, w⟩ := hd
    simp only [alistRemove]
    rcases List.mem_cons.mp h with rfl | hmem
    · rw [if_neg hne]
      exact List.mem_cons_self _ _
    · by_cases hk : k = a
      · rw [if_pos hk]
        exact ih hmem
      · rw [if_neg hk]
        exact List.mem_cons_of_mem _ (ih hmem)

/-- C7 counterexample: in `c9state` the session `s` is tracked for
notification by user `u`, and the daemon disconnect transitions it to ended
and notifies the user's viewer — but dispatches zero push notifications,
contradicting the claim that tracked sessions produce an ended push on
disconnect. -/
theorem c7_counterexample :
    isSessionTracked c9state "u" "s" = true ∧
    (runOp c9state (ROp.disconnect 0)).2.2 = [] ∧
    (alistGet (runOp c9state (ROp.disconnect 0)).1.sessions "s").map
      TrackedSession.status = some "ended" ∧
    (1, Frame.sessionStatus "s" "ended") ∈ (runOp c9state (ROp.disconnect 0)).2.1 := by
  decide

/-- C7 amended: on workstation disconnect every session the connection owned
is transitioned to ended with its daemon reference cleared, and each
authenticated mobile connection of the user is notified with a
`session_status ended` frame — but no push notification is dispatched on the
disconnect path; an ended push is dispatched only when the daemon sends an
explicit `session_end` message for a session of its user that is
tracked-for-notification. -/
theorem c7_disconnect_ended (st : RelayState) (c : Nat) (cd : ConnData)
    (sid : String) (sess : TrackedSession) (r : WsRef)
    (hc : alistGet st.conns c = some cd) (hdt : cd.ctype = CType.daemon)
    (hs : alistGet st.sessions sid = some sess)
    (hr : sess.daemonConn = some r) (hrc : r.connId = c) :
    (runOp st (ROp.disconnect c)).2.2 = [] ∧
    alistGet (removeConnection st c).1.sessions sid =
      some { sess with daemonConn := none, status := "ended" } ∧
    (∀ m md, (m, md) ∈ st.conns → m ≠ c → md.userId = cd.userId →
       md.ctype = CType.mobile → md.authenticated = true →
       (m, Frame.sessionStatus sid "ended") ∈ (removeConnection st c).2) ∧
    (∀ sess2, (getSessionsForUser st cd.userId).find? (fun s => s.id == sid) =
        some sess2 →
       cd.authenticated = true → isSessionTracked st cd.userId sid = true →
       (handleDaemonMessage st c (DaemonMsg.sessionEnd sid)).2.2 =
         [{ userId := cd.userId, sessionId := sid, kind := "ended",
            name := sess2.name }]) := by
  have howned : ownedBy c sess = true := by
    unfold ownedBy
    rw [hr]
    simp [hrc]
  refine ⟨rfl, ?_, ?_, ?_⟩
  · unfold removeConnection
    rw [hc]
    dsimp only
    rw [if_pos (by rw [hdt]; rfl)]
    dsimp only
    rw [show (fun (kv : String × TrackedSession) => (kv.1, endOwned c kv.2)) =
        (fun kv => (kv.1, (fun v => endOwned c v) kv.2)) from rfl]
    rw [alistGet_mapVal, hs]
    show some (endOwned c sess) = _
    unfold endOwned
    rw [if_pos howned]
  · intro m md hm hmc huser hmt hma
    unfold removeConnection
    rw [hc]
    dsimp only
    rw [if_pos (by rw [hdt]; rfl)]
    dsimp only
    apply List.mem_flatten.mpr
    refine ⟨notifyMobileClients
      { conns := alistRemove st.conns c,
        sessions := List.map (fun kv => (kv.1, endOwned c kv.2)) st.sessions,
        tracked := st.tracked }
      cd.userId (Frame.sessionStatus sid "ended"), ?_, ?_⟩
    · apply List.mem_map.mpr
      refine ⟨(sid, sess), ?_, rfl⟩
      apply List.mem_filter.mpr
      exact ⟨alistGet_mem hs, howned⟩
    · unfold notifyMobileClients userConns
      apply List.mem_map.mpr
      refine ⟨(m, md), ?_, rfl⟩
      apply List.mem_filter.mpr
      constructor
      · apply List.mem_filter.mpr
        refine ⟨mem_alistRemove_of_ne hm hmc, ?_⟩
        simp [huser]
      · simp [hmt, hma]
  · intro sess2 hfind hauth htr
    unfold handleDaemonMessage
    rw [hc]
    dsimp only
    rw [if_neg (fun hcon => hcon hauth)]
    dsimp only
    rw [hfind]
    dsimp only
    rw [htr]
    rfl

/-- Closed witness for `c7_disconnect_ended` at the concrete state
`c9state`. -/
theorem c7_disconnect_ended_witness :
    (runOp c9state (ROp.disconnect 0)).2.2 = [] ∧
    alistGet (removeConnection c9state 0).1.sessions "s" =
      some { id := "s", name := "n", cwd := "/w", status := "ended",
             daemonConn := none, messages := [], todos := [] } ∧
    (1, Frame.sessionStatus "s" "ended") ∈ (removeConnection c9state 0).2 ∧
    (handleDaemonMessage c9state 0 (DaemonMsg.sessionEnd "s")).2.2 =
      [{ userId := "u", sessionId := "s", kind := "ended", name := "n" }] := by
  have h := c7_disconnect_ended c9state 0
    { ctype := CType.daemon, userId := "u", authenticated := true, subscribed := [] }
    "s"
    { id := "s", name := "n", cwd := "/w", status := "running",
      daemonConn := some { connId := 0, userId := "u" }, messages := [], todos := [] }
    { connId := 0, userId := "u" }
    (by decide) rfl (by decide) rfl rfl
  refine ⟨h.1, h.2.1, ?_, ?_⟩
  · exact h.2.2.1 1
      { ctype := CType.mobile, userId := "u", authenticated := true, subscribed := [] }
      (by decide) (by decide) rfl rfl rfl
  · exact h.2.2.2
      { id := "s", name := "n", cwd := "/w", status := "running",
        daemonConn := some { connId := 0, userId := "u" }, messages := [], todos := [] }
      (by decide) rfl (by decide)

theorem ownedBy_exists {c : Nat} {sess : TrackedSession}
    (h : ownedBy c sess = true) :
    ∃ r, sess.daemonConn = some r ∧ r.connId = c := by
  unfold ownedBy at h
  cases hd : sess.daemonConn with
  | none => rw [hd] at h; cases h
  | some r =>
    rw [hd] at h
    exact ⟨r, rfl, by simpa using h⟩

theorem subscribeToSession_refused {v : Nat} {u sid : String} {st : RelayState}
    (h : ViewerIsolated v u sid st) :
    subscribeToSession st v sid = (false, st, []) := by
  unfold subscribeToSession
  cases hv : alistGet st.conns v with
  | none => rfl
  | some cd =>
    dsimp only
    cases hs : alistGet st.sessions sid with
    | none => rfl
    | some sess =>
      dsimp only
      obtain ⟨hu, _, _⟩ := h.1 cd (alistGet_mem hv)
      cases hd : sess.daemonConn with
      | none => simp
      | some r =>
        obtain ⟨hru, _⟩ := h.2 sess r (alistGet_mem hs) hd
        have : (r.userId == cd.userId) = false := by
          simp [hu]
          exact hru
        simp [this]

theorem subscribe_frames_conn (st : RelayState) (c : Nat) (sid2 : String) :
    ∀ cf ∈ (subscribeToSession st c sid2).2.2,
      cf.1 = c ∧ frameSession cf.2 = some sid2 := by
  intro cf hcf
  unfold subscribeToSession at hcf
  cases hv : alistGet st.conns c with
  | none => rw [hv] at hcf; cases hcf
  | some cd =>
    rw [hv] at hcf
    dsimp only at hcf
    cases hs : alistGet st.sessions sid2 with
    | none => rw [hs] at hcf; cases hcf
    | some sess =>
      rw [hs] at hcf
      dsimp only at hcf
      by_cases hg : (match sess.daemonConn with
          | some r => r.userId == cd.userId
          | none => false) = true
      · rw [if_pos hg] at hcf
        dsimp only at hcf
        rcases List.mem_cons.mp hcf with rfl | hcf2
        · exact ⟨rfl, rfl⟩
        · rcases List.mem_append.mp hcf2 with hcf3 | hcf3
          · obtain ⟨m, _, rfl⟩ := List.mem_map.mp hcf3
            exact ⟨rfl, rfl⟩
          · by_cases ht : sess.todos.isEmpty
            · rw [if_pos ht] at hcf3
              cases hcf3
            · rw [if_neg ht] at hcf3
              rcases List.mem_singleton.mp hcf3 with rfl
              exact ⟨rfl, rfl⟩
      · rw [if_neg hg] at hcf
        cases hcf

theorem subscribe_conns_mem {st : RelayState} {c : Nat} {sid2 : String}
    {kv : Nat × ConnData} (hkv : kv ∈ (subscribeToSession st c sid2).2.1.conns) :
    kv ∈ st.conns ∨
      ∃ cd, alistGet st.conns c = some cd ∧
        kv = (c, { cd with subscribed :=
          if cd.subscribed.contains sid2 then cd.subscribed
          else sid2 :: cd.subscribed }) := by
  unfold subscribeToSession at hkv
  cases hv : alistGet st.conns c with
  | none => rw [hv] at hkv; exact Or.inl hkv
  | some cd =>
    rw [hv] at hkv
    dsimp only at hkv
    cases hs : alistGet st.sessions sid2 with
    | none => rw [hs] at hkv; exact Or.inl hkv
    | some sess =>
      rw [hs] at hkv
      dsimp only at hkv
      by_cases hg : (match sess.daemonConn with
          | some r => r.userId == cd.userId
          | none => false) = true
      · rw [if_pos hg] at hkv
        dsimp only at hkv
        rcases mem_alistSet hkv with rfl | hold
        · exact Or.inr ⟨cd, rfl, rfl⟩
        · exact Or.inl hold
      · rw [if_neg hg] at hkv
        exact Or.inl hkv

theorem conns_updateSessionStatus (st : RelayState) (sid2 status : String) :
    (updateSessionStatus st sid2 status).1.conns = st.conns := by
  unfold updateSessionStatus
  repeat' split
  all_goals rfl

theorem conns_addMessage (st : RelayState) (sid2 role content : String) :
    (addMessage st sid2 role content).conns = st.conns := by
  unfold addMessage
  repeat' split
  all_goals rfl

theorem tracked_conns_sessions (st : RelayState) (u2 sid2 : String) :
    (trackSession st u2 sid2).conns = st.conns ∧
    (trackSession st u2 sid2).sessions = st.sessions ∧
    (untrackSession st u2 sid2).conns = st.conns ∧
    (untrackSession st u2 sid2).sessions = st.sessions := by
  refine ⟨rfl, rfl, ?_, ?_⟩ <;>
    · unfold untrackSession
      cases alistGet st.tracked u2 <;> rfl

theorem framesFor_flatten_nil {v : Nat} {sid : String}
    {L : List (List (Nat × Frame))} (h : ∀ l ∈ L, framesFor v sid l = []) :
    framesFor v sid L.flatten = [] := by
  induction L with
  | nil => rfl
  | cons x xs ih =>
    rw [List.flatten_cons, framesFor_append, h x (List.mem_cons_self _ _),
      ih (fun l hl => h l (List.mem_cons_of_mem _ hl))]
    rfl

theorem framesFor_updateSessionStatus {v : Nat} {sid : String} {st : RelayState}
    (hsub : ∀ cd, (v, cd) ∈ st.conns → sid ∉ cd.subscribed) (sid2 status : String) :
    framesFor v sid (updateSessionStatus st sid2 status).2 = [] := by
  unfold updateSessionStatus
  cases hs : alistGet st.sessions sid2 with
  | none => rfl
  | some sess =>
    dsimp only
    cases hd : sess.daemonConn with
    | none => rfl
    | some r =>
      dsimp only
      exact framesFor_notifySubscribed (Or.inl hsub) rfl

theorem viewerIsolated_updateSessionStatus {v : Nat} {u sid : String}
    {st : RelayState} (h : ViewerIsolated v u sid st) (sid2 status : String) :
    ViewerIsolated v u sid (updateSessionStatus st sid2 status).1 := by
  unfold updateSessionStatus
  cases hs : alistGet st.sessions sid2 with
  | none => exact h
  | some sess =>
    dsimp only
    cases hd : sess.daemonConn with
    | none => exact h
    | some r0 =>
      dsimp only
      constructor
      · exact h.1
      · intro x r hx hr
        rcases mem_alistSet hx with heq | hold
        · have hkey : sid2 = sid := (congrArg Prod.fst heq).symm
          have hval : x = { id := sess.id, name := sess.name, cwd := sess.cwd,
                            status := status, daemonConn := some r0,
                            messages := sess.messages,
                            todos := sess.todos } := congrArg Prod.snd heq
          subst hkey
          have hx2 : x.daemonConn = some r0 := by rw [hval]
          rw [hx2] at hr
          cases hr
          exact h.2 sess r0 (alistGet_mem hs) hd
        · exact h.2 x r hold hr

theorem viewerIsolated_addMessage {v : Nat} {u sid : String}
    {st : RelayState} (h : ViewerIsolated v u sid st) (sid2 role content : String) :
    ViewerIsolated v u sid (addMessage st sid2 role content) := by
  unfold addMessage
  cases hs : alistGet st.sessions sid2 with
  | none => exact h
  | some sess =>
    dsimp only
    constructor
    · exact h.1
    · intro x r hx hr
      rcases mem_alistSet hx with heq | hold
      · have hkey : sid2 = sid := (congrArg Prod.fst heq).symm
        have hval : x = ({ sess with
            messages := pushCapped sess.messages { role := role, content := content } } :
            TrackedSession) := congrArg Prod.snd heq
        subst hkey
        have hx2 : x.daemonConn = sess.daemonConn := by rw [hval]
        exact h.2 sess r (alistGet_mem hs) (by rw [← hx2]; exact hr)
      · exact h.2 x r hold hr

theorem viewerIsolated_newConn {v : Nat} {u sid : String} {st : RelayState}
    (h : ViewerIsolated v u sid st) {c : Nat} {cd cd2 : ConnData}
    (hc : alistGet st.conns c = some cd) (huser : cd2.userId = cd.userId)
    (hct : cd2.ctype = cd.ctype)
    (hsub : sid ∉ cd.subscribed → sid ∉ cd2.subscribed) :
    ViewerIsolated v u sid { st with conns := alistSet st.conns c cd2 } := by
  constructor
  · intro cd' hcd'
    rcases mem_alistSet hcd' with heq | hold
    · have hkey : c = v := (congrArg Prod.fst heq).symm
      have hval : cd' = cd2 := congrArg Prod.snd heq
      subst hkey
      obtain ⟨h1, h2, h3⟩ := h.1 cd (alistGet_mem hc)
      refine ⟨?_, ?_, ?_⟩
      · rw [hval, huser]; exact h1
      · rw [hval, hct]; exact h2
      · rw [hval]; exact hsub h3
    · exact h.1 cd' hold
  · intro sess r hsess hr
    obtain ⟨hru, hconns⟩ := h.2 sess r hsess hr
    refine ⟨hru, ?_⟩
    intro cdc hcdc
    rcases mem_alistSet hcdc with heq | hold
    · have hkey : r.connId = c := congrArg Prod.fst heq
      have hval : cdc = cd2 := congrArg Prod.snd heq
      have hmem2 : (r.connId, cd) ∈ st.conns := by
        rw [hkey]
        exact alistGet_mem hc
      have := hconns cd hmem2
      rw [hval, huser]
      exact this
    · exact hconns cdc hold

theorem viewerIsolated_runOp {v : Nat} {u sid : String} {st : RelayState}
    (op : ROp) (hop : isStartFor sid op = false) (h : ViewerIsolated v u sid st) :
    ViewerIsolated v u sid (runOp st op).1 ∧
      framesFor v sid (runOp st op).2.1 = [] := by
  have hsubconns : ∀ cd, (v, cd) ∈ st.conns → sid ∉ cd.subscribed :=
    fun cd hcd => (h.1 cd hcd).2.2
  cases op with
  | daemon c m =>
    show ViewerIsolated v u sid (handleDaemonMessage st c m).1 ∧
      framesFor v sid (handleDaemonMessage st c m).2.1 = []
    unfold handleDaemonMessage
    cases hg : alistGet st.conns c with
    | none => exact ⟨h, rfl⟩
    | some cd =>
      dsimp only
      by_cases hauth : cd.authenticated = true
      · rw [if_neg (fun hcon => hcon hauth)]
        cases m with
        | sessionStart sid2 name cwd =>
          have hne : sid2 ≠ sid := by
            unfold isStartFor at hop
            simpa using hop
          dsimp only
          unfold registerSession
          dsimp only
          constructor
          · constructor
            · exact h.1
            · intro sess r hsess hr
              rcases mem_alistSet hsess with heq | hold
              · exact absurd (congrArg Prod.fst heq).symm hne
              · exact h.2 sess r hold hr
          · exact framesFor_notifyMobile_other (Or.inr (by simp [frameSession]))
        | sessionOutput sid2 data =>
          dsimp only
          exact ⟨h, framesFor_notifySubscribed (Or.inl hsubconns) rfl⟩
        | sessionStatus sid2 status =>
          dsimp only
          exact ⟨viewerIsolated_updateSessionStatus h sid2 status,
            framesFor_updateSessionStatus hsubconns sid2 status⟩
        | sessionEnd sid2 =>
          dsimp only
          exact ⟨viewerIsolated_updateSessionStatus h sid2 "ended",
            framesFor_updateSessionStatus hsubconns sid2 "ended"⟩
        | sessionMessage sid2 role content =>
          dsimp only
          unfold handleSessionMessageSpec
          dsimp only
          refine ⟨viewerIsolated_addMessage h sid2 role content, ?_⟩
          refine framesFor_notifySubscribed (Or.inl fun cd2 hcd2 => ?_) rfl
          rw [conns_addMessage] at hcd2
          exact hsubconns cd2 hcd2
      · rw [if_pos (fun hcon => hauth hcon)]
        exact ⟨h, rfl⟩
  | mobile c m =>
    show ViewerIsolated v u sid (handleMobileMessage st c m).1 ∧
      framesFor v sid (handleMobileMessage st c m).2.1 = []
    unfold handleMobileMessage
    cases hg : alistGet st.conns c with
    | none => exact ⟨h, rfl⟩
    | some cd =>
      dsimp only
      by_cases hauth : cd.authenticated = true
      · rw [if_neg (fun hcon => hcon hauth)]
        cases m with
        | listSessions =>
          dsimp only
          refine ⟨h, framesFor_nil_of ?_⟩
          intro cf hcf
          rcases List.mem_singleton.mp hcf with rfl
          exact Or.inr (by simp [frameSession])
        | subscribe sid2 =>
          dsimp only
          by_cases hvc : c = v ∧ sid2 = sid
          · obtain ⟨rfl, rfl⟩ := hvc
            rw [subscribeToSession_refused h]
            dsimp only
            refine ⟨h, framesFor_nil_of ?_⟩
            intro cf hcf
            rcases List.mem_singleton.mp hcf with rfl
            exact Or.inr (by simp [frameSession])
          · have hinv2 : ViewerIsolated v u sid (subscribeToSession st c sid2).2.1 := by
              constructor
              · intro cd' hcd'
                rcases subscribe_conns_mem hcd' with hold | ⟨cd3, hcd3, heq3⟩
                · exact h.1 cd' hold
                · have hkey : c = v := (congrArg Prod.fst heq3).symm
                  have hval : cd' = ({ cd3 with subscribed :=
                      if cd3.subscribed.contains sid2 then cd3.subscribed
                      else sid2 :: cd3.subscribed } : ConnData) := congrArg Prod.snd heq3
                  subst hkey
                  obtain ⟨h1, h2, h3⟩ := h.1 cd3 (alistGet_mem hcd3)
                  rw [hval]
                  refine ⟨h1, h2, ?_⟩
                  show sid ∉ _
                  split
                  · exact h3
                  · intro hmem
                    rcases List.mem_cons.mp hmem with heq2 | hmem2
                    · exact hvc ⟨rfl, heq2.symm⟩
                    · exact h3 hmem2
              · intro sess r hsess hr
                rw [sessions_subscribeToSession] at hsess
                obtain ⟨hru, hconns⟩ := h.2 sess r hsess hr
                refine ⟨hru, ?_⟩
                intro cdc hcdc
                rcases subscribe_conns_mem hcdc with hold | ⟨cd3, hcd3, heq3⟩
                · exact hconns cdc hold
                · have hkey : r.connId = c := congrArg Prod.fst heq3
                  have hval : cdc = ({ cd3 with subscribed :=
                      if cd3.subscribed.contains sid2 then cd3.subscribed
                      else sid2 :: cd3.subscribed } : ConnData) := congrArg Prod.snd heq3
                  have hmem3 : (r.connId, cd3) ∈ st.conns := by
                    rw [hkey]
                    exact alistGet_mem hcd3
                  have := hconns cd3 hmem3
                  rw [hval]
                  exact this
            have hfr : ∀ cf ∈ (subscribeToSession st c sid2).2.2,
                cf.1 ≠ v ∨ frameSession cf.2 ≠ some sid := by
              intro cf hcf
              obtain ⟨hc1, hc2⟩ := subscribe_frames_conn st c sid2 cf hcf
              by_cases hcv : c = v
              · right
                rw [hc2]
                intro hcon
                exact hvc ⟨hcv, Option.some_inj.mp hcon⟩
              · exact Or.inl (hc1 ▸ hcv)
            split
            · exact ⟨hinv2, framesFor_nil_of hfr⟩
            · refine ⟨hinv2, ?_⟩
              rw [framesFor_append]
              rw [framesFor_nil_of hfr]
              rw [framesFor_nil_of ?_]
              · rfl
              · intro cf hcf
                rcases List.mem_singleton.mp hcf with rfl
                exact Or.inr (by simp [frameSession])
        | unsubscribe sid2 =>
          dsimp only
          unfold unsubscribeFromSession
          rw [hg]
          dsimp only
          refine ⟨?_, rfl⟩
          refine viewerIsolated_newConn h hg rfl rfl ?_
          intro hnot hmem
          exact hnot (List.mem_of_mem_erase hmem)
        | sendInputMsg sid2 text =>
          dsimp only
          cases hb : (alistGet st.sessions sid2).bind (fun sess => sess.daemonConn) with
          | some r =>
            dsimp only
            refine ⟨h, framesFor_nil_of ?_⟩
            intro cf hcf
            rcases List.mem_singleton.mp hcf with rfl
            exact Or.inr (by simp [frameSession])
          | none =>
            dsimp only
            refine ⟨h, framesFor_nil_of ?_⟩
            intro cf hcf
            rcases List.mem_singleton.mp hcf with rfl
            exact Or.inr (by simp [frameSession])
        | track sid2 =>
          dsimp only
          refine ⟨⟨?_, ?_⟩, rfl⟩
          · intro cd' hcd'
            exact h.1 cd' (by
              rw [(tracked_conns_sessions st cd.userId sid2).1] at hcd'
              exact hcd')
          · intro sess r hsess hr
            rw [(tracked_conns_sessions st cd.userId sid2).2.1] at hsess
            obtain ⟨hru, hconns⟩ := h.2 sess r hsess hr
            refine ⟨hru, ?_⟩
            intro cdc hcdc
            rw [(tracked_conns_sessions st cd.userId sid2).1] at hcdc
            exact hconns cdc hcdc
        | untrack sid2 =>
          dsimp only
          refine ⟨⟨?_, ?_⟩, rfl⟩
          · intro cd' hcd'
            exact h.1 cd' (by
              rw [(tracked_conns_sessions st cd.userId sid2).2.2.1] at hcd'
              exact hcd')
          · intro sess r hsess hr
            rw [(tracked_conns_sessions st cd.userId sid2).2.2.2] at hsess
            obtain ⟨hru, hconns⟩ := h.2 sess r hsess hr
            refine ⟨hru, ?_⟩
            intro cdc hcdc
            rw [(tracked_conns_sessions st cd.userId sid2).2.2.1] at hcdc
            exact hconns cdc hcdc
      · rw [if_pos (fun hcon => hauth hcon)]
        exact ⟨h, rfl⟩
  | disconnect c =>
    show ViewerIsolated v u sid (removeConnection st c).1 ∧
      framesFor v sid (removeConnection st c).2 = []
    unfold removeConnection
    cases hg : alistGet st.conns c with
    | none => exact ⟨h, rfl⟩
    | some cd =>
      dsimp only
      have hinvRem : ViewerIsolated v u sid { st with conns := alistRemove st.conns c } := by
        constructor
        · intro cd' hcd'
          exact h.1 cd' (mem_alistRemove hcd')
        · intro sess r hsess hr
          obtain ⟨hru, hconns⟩ := h.2 sess r hsess hr
          exact ⟨hru, fun cdc hcdc => hconns cdc (mem_alistRemove hcdc)⟩
      split
      · constructor
        · constructor
          · intro cd' hcd'
            exact h.1 cd' (mem_alistRemove hcd')
          · intro sess r hsess hr
            obtain ⟨kv, hkv, hkveq⟩ := List.mem_map.mp hsess
            have hkey : kv.1 = sid := congrArg Prod.fst hkveq
            have hval : endOwned c kv.2 = sess := congrArg Prod.snd hkveq
            by_cases howned : ownedBy c kv.2 = true
            · exfalso
              have : sess.daemonConn = none := by
                rw [← hval]
                unfold endOwned
                rw [if_pos howned]
              rw [this] at hr
              cases hr
            · have hsame : kv.2 = sess := by
                rw [← hval]
                unfold endOwned
                rw [if_neg howned]
              obtain ⟨hru, hconns⟩ := h.2 sess r (by
                rw [← hkey, ← hsame] at *
                exact (show (kv.1, kv.2) ∈ st.sessions from hkv)) hr
              exact ⟨hru, fun cdc hcdc => hconns cdc (mem_alistRemove hcdc)⟩
        · apply framesFor_flatten_nil
          intro l hl
          obtain ⟨kv, hkv, rfl⟩ := List.mem_map.mp hl
          have hkvmem := List.mem_of_mem_filter hkv
          have hkvowned := List.of_mem_filter hkv
          by_cases hksid : kv.1 = sid
          · obtain ⟨r, hr, hrc⟩ := ownedBy_exists hkvowned
            have hses : (sid, kv.2) ∈ st.sessions := by
              rw [← hksid]
              exact hkvmem
            obtain ⟨hru, hconns⟩ := h.2 kv.2 r hses hr
            have hcdne : cd.userId ≠ u := hconns cd (hrc ▸ alistGet_mem hg)
            apply framesFor_notifyMobile_other
            left
            intro cd' hcd'
            have hcd'mem : (v, cd') ∈ st.conns := mem_alistRemove hcd'
            have : cd'.userId = u := (h.1 cd' hcd'mem).1
            rw [this]
            exact fun hc => hcdne hc.symm
          · apply framesFor_notifyMobile_other
            right
            intro hcon
            exact hksid (Option.some_inj.mp hcon)
      · exact ⟨hinvRem, rfl⟩

/-- C8: an authenticated viewer whose user does not own a session receives
an `error` frame on subscribe (with the registry state unchanged), and over
any sequence of relay operations that does not re-register the session id,
no frame carrying that session's data is ever delivered to the viewer. -/
theorem c8_viewer_isolation (st : RelayState) (v : Nat) (u : String) (sid : String)
    (ops : List ROp) (hiso : ViewerIsolated v u sid st)
    (hops : ∀ op ∈ ops, isStartFor sid op = false) :
    (∀ cd, alistGet st.conns v = some cd → cd.authenticated = true →
       handleMobileMessage st v (MobileMsg.subscribe sid) =
         (st, [(v, Frame.errorMsg "Session not found or not accessible")], [])) ∧
    framesFor v sid (runOps st ops).2.1 = [] ∧
    ViewerIsolated v u sid (runOps st ops).1 := by
  have main : ∀ (l : List ROp) (st2 : RelayState), ViewerIsolated v u sid st2 →
      (∀ op ∈ l, isStartFor sid op = false) →
      framesFor v sid (runOps st2 l).2.1 = [] ∧
        ViewerIsolated v u sid (runOps st2 l).1 := by
    intro l
    induction l with
    | nil => intro st2 h2 _; exact ⟨rfl, h2⟩
    | cons op rest ih =>
      intro st2 h2 hops2
      have hstep := viewerIsolated_runOp op (hops2 op (List.mem_cons_self _ _)) h2
      have hrest := ih (runOp st2 op).1 hstep.1
        (fun o ho => hops2 o (List.mem_cons_of_mem _ ho))
      constructor
      · show framesFor v sid
          ((runOp st2 op).2.1 ++ (runOps (runOp st2 op).1 rest).2.1) = []
        rw [framesFor_append, hstep.2, hrest.1]
        rfl
      · exact hrest.2
  refine ⟨?_, (main ops st hiso hops).1, (main ops st hiso hops).2⟩
  intro cd hv hauth
  unfold handleMobileMessage
  rw [hv]
  simp [hauth, subscribeToSession_refused hiso]

/-- Closed witness for `c8_viewer_isolation`: the foreign viewer of `c8state`
gets an `error` on subscribe, and a run with a buffered message, a subscribe
attempt and live output delivers it no session data. -/
theorem c8_viewer_isolation_witness :
    handleMobileMessage c8state 2 (MobileMsg.subscribe "s") =
      (c8state, [(2, Frame.errorMsg "Session not found or not accessible")], []) ∧
    framesFor 2 "s" (runOps c8state
      [ROp.daemon 0 (DaemonMsg.sessionMessage "s" "user" "secret"),
       ROp.mobile 2 (MobileMsg.subscribe "s"),
       ROp.daemon 0 (DaemonMsg.sessionOutput "s" "data")]).2.1 = [] := by
  have hiso : ViewerIsolated 2 "u2" "s" c8state := by
    constructor
    · intro cd hcd
      have : cd = { ctype := CType.mobile, userId := "u2",
                    authenticated := true, subscribed := [] } := by
        simp only [c8state] at hcd
        rcases List.mem_cons.mp hcd with heq | hcd2
        · cases congrArg Prod.fst heq
        · rcases List.mem_singleton.mp hcd2 with heq2
          exact congrArg Prod.snd heq2
      rw [this]
      exact ⟨rfl, rfl, by simp⟩
    · intro sess r hsess hr
      have hsval : sess = { id := "s", name := "n", cwd := "/w",
                            status := "running",
                            daemonConn := some { connId := 0, userId := "w" },
                            messages := [{ role := "user", content := "hello" }],
                            todos := [] } := by
        simp only [c8state] at hsess
        rcases List.mem_singleton.mp hsess with heq
        exact congrArg Prod.snd heq
      subst hsval
      cases hr
      refine ⟨by decide, ?_⟩
      intro cdc hcdc
      simp only [c8state] at hcdc
      rcases List.mem_cons.mp hcdc with heq | hcdc2
      · have hval : cdc = { ctype := CType.daemon, userId := "w",
                            authenticated := true,
                            subscribed := [] } := congrArg Prod.snd heq
        rw [hval]
        decide
      · rcases List.mem_singleton.mp hcdc2 with heq2
        cases congrArg Prod.fst heq2
  have h := c8_viewer_isolation c8state 2 "u2" "s"
    [ROp.daemon 0 (DaemonMsg.sessionMessage "s" "user" "secret"),
     ROp.mobile 2 (MobileMsg.subscribe "s"),
     ROp.daemon 0 (DaemonMsg.sessionOutput "s" "data")]
    hiso
    (by
      intro op hop
      rcases List.mem_cons.mp hop with rfl | hop2
      · rfl
      rcases List.mem_cons.mp hop2 with rfl | hop3
      · rfl
      rcases List.mem_singleton.mp hop3 with rfl
      rfl)
  exact ⟨h.1 { ctype := CType.mobile, userId := "u2",
               authenticated := true, subscribed := [] } (by decide) rfl, h.2.1⟩

theorem runOps_cons (st : RelayState) (op : ROp) (rest : List ROp) :
    runOps st (op :: rest) =
      ((runOps (runOp st op).1 rest).1,
       (runOp st op).2.1 ++ (runOps (runOp st op).1 rest).2.1,
       (runOp st op).2.2 ++ (runOps (runOp st op).1 rest).2.2) := rfl

theorem runOps_append (st : RelayState) (l1 l2 : List ROp) :
    runOps st (l1 ++ l2) =
      ((runOps (runOps st l1).1 l2).1,
       (runOps st l1).2.1 ++ (runOps (runOps st l1).1 l2).2.1,
       (runOps st l1).2.2 ++ (runOps (runOps st l1).1 l2).2.2) := by
  induction l1 generalizing st with
  | nil => simp [runOps]
  | cons op rest ih =>
    rw [List.cons_append, runOps_cons, ih, runOps_cons st op rest]
    simp [List.append_assoc]

theorem notSubscribed_runOp {v : Nat} {sid : String} {st : RelayState} (op : ROp)
    (hop1 : ∀ c, op ≠ ROp.disconnect c)
    (hop2 : op ≠ ROp.mobile v (MobileMsg.subscribe sid))
    (h : NotSubscribed v sid st) :
    NotSubscribed v sid (runOp st op).1 ∧ framesFor v sid (runOp st op).2.1 = [] := by
  cases op with
  | disconnect c => exact absurd rfl (hop1 c)
  | daemon c m =>
    show NotSubscribed v sid (handleDaemonMessage st c m).1 ∧
      framesFor v sid (handleDaemonMessage st c m).2.1 = []
    unfold handleDaemonMessage
    cases hg : alistGet st.conns c with
    | none => exact ⟨h, rfl⟩
    | some cd =>
      dsimp only
      by_cases hauth : cd.authenticated = true
      · rw [if_neg (fun hcon => hcon hauth)]
        cases m with
        | sessionStart sid2 name cwd =>
          dsimp only
          unfold registerSession
          dsimp only
          exact ⟨h, framesFor_notifyMobile_other (Or.inr (by simp [frameSession]))⟩
        | sessionOutput sid2 data =>
          dsimp only
          exact ⟨h, framesFor_notifySubscribed (Or.inl h) rfl⟩
        | sessionStatus sid2 status =>
          dsimp only
          refine ⟨?_, framesFor_updateSessionStatus h sid2 status⟩
          intro cd2 hcd2
          rw [conns_updateSessionStatus] at hcd2
          exact h cd2 hcd2
        | sessionEnd sid2 =>
          dsimp only
          refine ⟨?_, framesFor_updateSessionStatus h sid2 "ended"⟩
          intro cd2 hcd2
          rw [conns_updateSessionStatus] at hcd2
          exact h cd2 hcd2
        | sessionMessage sid2 role content =>
          dsimp only
          unfold handleSessionMessageSpec
          dsimp only
          constructor
          · intro cd2 hcd2
            rw [conns_addMessage] at hcd2
            exact h cd2 hcd2
          · refine framesFor_notifySubscribed (Or.inl fun cd2 hcd2 => ?_) rfl
            rw [conns_addMessage] at hcd2
            exact h cd2 hcd2
      · rw [if_pos (fun hcon => hauth hcon)]
        exact ⟨h, rfl⟩
  | mobile c m =>
    show NotSubscribed v sid (handleMobileMessage st c m).1 ∧
      framesFor v sid (handleMobileMessage st c m).2.1 = []
    unfold handleMobileMessage
    cases hg : alistGet st.conns c with
    | none => exact ⟨h, rfl⟩
    | some cd =>
      dsimp only
      by_cases hauth : cd.authenticated = true
      · rw [if_neg (fun hcon => hcon hauth)]
        cases m with
        | listSessions =>
          dsimp only
          refine ⟨h, framesFor_nil_of ?_⟩
          intro cf hcf
          rcases List.mem_singleton.mp hcf with rfl
          exact Or.inr (by simp [frameSession])
        | subscribe sid2 =>
          have hvc : ¬ (c = v ∧ sid2 = sid) := by
            rintro ⟨rfl, rfl⟩
            exact hop2 rfl
          dsimp only
          have hinv2 : NotSubscribed v sid (subscribeToSession st c sid2).2.1 := by
            intro cd' hcd'
            rcases subscribe_conns_mem hcd' with hold | ⟨cd3, hcd3, heq3⟩
            · exact h cd' hold
            · have hkey : c = v := (congrArg Prod.fst heq3).symm
              have hval : cd' = ({ cd3 with subscribed :=
                  if cd3.subscribed.contains sid2 then cd3.subscribed
                  else sid2 :: cd3.subscribed } : ConnData) := congrArg Prod.snd heq3
              subst hkey
              have h3 := h cd3 (alistGet_mem hcd3)
              rw [hval]
              show sid ∉ _
              split
              · exact h3
              · intro hmem
                rcases List.mem_cons.mp hmem with heq2 | hmem2
                · exact hvc ⟨rfl, heq2.symm⟩
                · exact h3 hmem2
          have hfr : ∀ cf ∈ (subscribeToSession st c sid2).2.2,
              cf.1 ≠ v ∨ frameSession cf.2 ≠ some sid := by
            intro cf hcf
            obtain ⟨hc1, hc2⟩ := subscribe_frames_conn st c sid2 cf hcf
            by_cases hcv : c = v
            · right
              rw [hc2]
              intro hcon
              exact hvc ⟨hcv, Option.some_inj.mp hcon⟩
            · exact Or.inl (hc1 ▸ hcv)
          split
          · exact ⟨hinv2, framesFor_nil_of hfr⟩
          · refine ⟨hinv2, ?_⟩
            rw [framesFor_append, framesFor_nil_of hfr, framesFor_nil_of ?_]
            · rfl
            · intro cf hcf
              rcases List.mem_singleton.mp hcf with rfl
              exact Or.inr (by simp [frameSession])
        | unsubscribe sid2 =>
          dsimp only
          unfold unsubscribeFromSession
          rw [hg]
          dsimp only
          refine ⟨?_, rfl⟩
          intro cd' hcd'
          rcases mem_alistSet hcd' with heq | hold
          · have hval : cd' = ({ cd with
                subscribed := cd.subscribed.erase sid2 } : ConnData) :=
              congrArg Prod.snd heq
            have hkey : c = v := (congrArg Prod.fst heq).symm
            subst hkey
            rw [hval]
            intro hmem
            exact h cd (alistGet_mem hg) (List.mem_of_mem_erase hmem)
          · exact h cd' hold
        | sendInputMsg sid2 text =>
          dsimp only
          cases hb : (alistGet st.sessions sid2).bind (fun sess => sess.daemonConn) with
          | some r =>
            dsimp only
            refine ⟨h, framesFor_nil_of ?_⟩
            intro cf hcf
            rcases List.mem_singleton.mp hcf with rfl
            exact Or.inr (by simp [frameSession])
          | none =>
            dsimp only
            refine ⟨h, framesFor_nil_of ?_⟩
            intro cf hcf
            rcases List.mem_singleton.mp hcf with rfl
            exact Or.inr (by simp [frameSession])
        | track sid2 =>
          dsimp only
          refine ⟨?_, rfl⟩
          intro cd' hcd'
          rw [(tracked_conns_sessions st cd.userId sid2).1] at hcd'
          exact h cd' hcd'
        | untrack sid2 =>
          dsimp only
          refine ⟨?_, rfl⟩
          intro cd' hcd'
          rw [(tracked_conns_sessions st cd.userId sid2).2.2.1] at hcd'
          exact h cd' hcd'
      · rw [if_pos (fun hcon => hauth hcon)]
        exact ⟨h, rfl⟩

theorem notSubscribed_runOps {v : Nat} {sid : String} (ops : List ROp) :
    ∀ {st : RelayState}, NotSubscribed v sid st →
    (∀ c, ROp.disconnect c ∉ ops) →
    (ROp.mobile v (MobileMsg.subscribe sid) ∉ ops) →
    framesFor v sid (runOps st ops).2.1 = [] := by
  induction ops with
  | nil => intro st _ _ _; rfl
  | cons op rest ih =>
    intro st h h1 h2
    have hop1 : ∀ c, op ≠ ROp.disconnect c :=
      fun c hc => h1 c (hc ▸ List.mem_cons_self _ _)
    have hop2 : op ≠ ROp.mobile v (MobileMsg.subscribe sid) :=
      fun hc => h2 (hc ▸ List.mem_cons_self _ _)
    have hstep := notSubscribed_runOp op hop1 hop2 h
    show framesFor v sid ((runOp st op).2.1 ++ (runOps (runOp st op).1 rest).2.1) = []
    rw [framesFor_append, hstep.2,
      ih hstep.1 (fun c hc => h1 c (List.mem_cons_of_mem _ hc))
        (fun hc => h2 (List.mem_cons_of_mem _ hc))]
    rfl

theorem pushCapped_foldl_bound (ms : List ChatMessage) :
    ∀ buf : List ChatMessage, buf.length ≤ 100 →
      (ms.foldl pushCapped buf).length ≤ 100 ∧
        (ms.foldl pushCapped buf) <:+ (buf ++ ms) := by
  induction ms with
  | nil =>
    intro buf hb
    exact ⟨hb, by simp⟩
  | cons m rest ih =>
    intro buf hb
    have hstep : (pushCapped buf m).length ≤ 100 ∧ pushCapped buf m <:+ buf ++ [m] := by
      unfold pushCapped
      by_cases hlen : (buf ++ [m]).length > 100
      · rw [if_pos hlen]
        constructor
        · rw [List.length_drop]
          omega
        · exact List.drop_suffix _ _
      · rw [if_neg hlen]
        exact ⟨by omega, List.suffix_refl _⟩
    obtain ⟨hlen2, hsuf2⟩ := ih (pushCapped buf m) hstep.1
    refine ⟨hlen2, ?_⟩
    have happ : pushCapped buf m ++ rest <:+ (buf ++ [m]) ++ rest := by
      obtain ⟨t, ht⟩ := hstep.2
      exact ⟨t, by rw [← List.append_assoc, ht]⟩
    have : (buf ++ [m]) ++ rest = buf ++ (m :: rest) := by simp
    rw [this] at happ
    exact hsuf2.trans happ

/-- C6: on a successful subscribe the relay sends the current session status
first, then the buffered messages in order, then the todos exactly when
nonempty; the message buffer maintained by `addMessage` always holds at most
the last 100 messages in original order; and in any run without disconnects
in which the viewer has not subscribed to the session before, every frame of
that session delivered to the viewer comes from the subscribe replay or
later — replay strictly precedes live forwarding. -/
theorem c6_subscribe_replay (st : RelayState) (v : Nat) (sid : String)
    (pre post : List ROp) (ms : List ChatMessage)
    (hnosub : NotSubscribed v sid st)
    (hpre1 : ∀ c, ROp.disconnect c ∉ pre)
    (hpre2 : ROp.mobile v (MobileMsg.subscribe sid) ∉ pre) :
    (∀ st2 sess, alistGet st2.sessions sid = some sess →
       (subscribeToSession st2 v sid).1 = true →
       (subscribeToSession st2 v sid).2.2 =
         (v, Frame.sessionStatus sid sess.status) ::
         (sess.messages.map fun m => (v, Frame.sessionMessage sid m.role m.content)) ++
         (if sess.todos.isEmpty then [] else [(v, Frame.sessionTodos sid sess.todos)])) ∧
    ((ms.foldl pushCapped []).length ≤ 100 ∧ (ms.foldl pushCapped []) <:+ ms) ∧
    framesFor v sid
        (runOps st (pre ++ ROp.mobile v (MobileMsg.subscribe sid) :: post)).2.1 =
      framesFor v sid
        (handleMobileMessage (runOps st pre).1 v (MobileMsg.subscribe sid)).2.1 ++
      framesFor v sid
        (runOps (handleMobileMessage (runOps st pre).1 v
          (MobileMsg.subscribe sid)).1 post).2.1 := by
  refine ⟨?_, ?_, ?_⟩
  · intro st2 sess hs hok
    unfold subscribeToSession at hok ⊢
    cases hv : alistGet st2.conns v with
    | none => rw [hv] at hok; dsimp only at hok; cases hok
    | some cd =>
      rw [hv] at hok
      dsimp only at hok ⊢
      rw [hs] at hok ⊢
      dsimp only at hok ⊢
      by_cases hguard : (match sess.daemonConn with
          | some r => r.userId == cd.userId
          | none => false) = true
      · rw [if_pos hguard]
      · rw [if_neg hguard] at hok
        cases hok
  · have := pushCapped_foldl_bound ms [] (by simp)
    simpa using this
  · rw [runOps_append]
    dsimp only
    rw [framesFor_append]
    rw [notSubscribed_runOps pre hnosub hpre1 hpre2]
    rw [List.nil_append]
    show framesFor v sid
        ((runOp (runOps st pre).1 (ROp.mobile v (MobileMsg.subscribe sid))).2.1 ++
         (runOps (runOp (runOps st pre).1
           (ROp.mobile v (MobileMsg.subscribe sid))).1 post).2.1) = _
    rw [framesFor_append]
    rfl

theorem c6_subscribe_replay_witness :
    (subscribeToSession c6state 1 "s").2.2 =
      (1, Frame.sessionStatus "s" c6sess.status) ::
      (c6sess.messages.map fun m => (1, Frame.sessionMessage "s" m.role m.content)) ++
      (if c6sess.todos.isEmpty then [] else [(1, Frame.sessionTodos "s" c6sess.todos)]) ∧
    ((c6msgs.foldl pushCapped []).length ≤ 100 ∧ (c6msgs.foldl pushCapped []) <:+ c6msgs) ∧
    framesFor 1 "s"
        (runOps c6state (c6pre ++ ROp.mobile 1 (MobileMsg.subscribe "s") :: c6post)).2.1 =
      framesFor 1 "s"
        (handleMobileMessage (runOps c6state c6pre).1 1 (MobileMsg.subscribe "s")).2.1 ++
      framesFor 1 "s"
        (runOps (handleMobileMessage (runOps c6state c6pre).1 1
          (MobileMsg.subscribe "s")).1 c6post).2.1 := by
  have hns : NotSubscribed 1 "s" c6state := by
    intro cd hcd
    simp only [c6state, List.mem_cons, List.not_mem_nil, or_false,
      Prod.mk.injEq] at hcd
    rcases hcd with ⟨h0, _⟩ | ⟨_, rfl⟩
    · exact absurd h0 (by decide)
    · simp
  have hp1 : ∀ c, ROp.disconnect c ∉ c6pre := by
    intro c hc
    rcases List.mem_singleton.mp hc with h
    cases h
  have hp2 : ROp.mobile 1 (MobileMsg.subscribe "s") ∉ c6pre := by decide
  obtain ⟨h1, h2, h3⟩ :=
    c6_subscribe_replay c6state 1 "s" c6pre c6post c6msgs hns hp1 hp2
  exact ⟨h1 c6state c6sess rfl (by decide), h2, h3⟩

end Relay

end Afk